import Mathlib

/-!
Verification of the normalization and entity-extraction engine of the
property-ETL repository.  The Python sources (`src/utils/cleaning.py`,
`src/pipeline/transform.py`, `src/models/property.py`) are shallowly
embedded: dynamic Python values become the tagged variant `Value`,
exceptions become `Except PyError`, `decimal.Decimal` becomes an exact
mantissa/exponent pair, and floats are modelled by the exact decimal
value of their shortest representation (`PyFloat.finite m e` is the
float whose repr is m * 10^(-e); binary rounding is outside the scope of
the claims).  `datetime.utcnow().year` is passed in as an explicit
`currentYear` parameter and the `created_at` timestamp column is omitted
from the record model (it is a wall-clock default, not data-dependent).
-/

namespace PropertyEtl

/-- Python exception classes that the embedded code can raise. -/
inductive PyError where
  | typeError
  | valueError
  | invalidOperation
  | overflowError
  | validationError
  deriving DecidableEq, Repr

/-- Python float, modelled by the exact decimal value of its repr:
`finite m e` stands for the float printed as m * 10^(-e). -/
inductive PyFloat where
  | nan
  | inf
  | ninf
  | finite (m : Int) (e : Nat)
  deriving DecidableEq, Repr

/-- `decimal.Decimal`, modelled as sign/infinite specials plus an exact
mantissa/exponent pair: `fin m e` is the decimal m * 10^(-e). -/
inductive PyDecimal where
  | nan
  | inf
  | ninf
  | fin (m : Int) (e : Nat)
  deriving DecidableEq, Repr

/-- The dynamic value universe of the raw records: every field value is
one of these shapes (absent is represented by the caller, `None` by
`Value.none`). -/
inductive Value where
  | none
  | bool (b : Bool)
  | int (n : Int)
  | float (f : PyFloat)
  | str (s : String)
  | bytes (bs : List Nat)
  | decimal (d : PyDecimal)
  | list (xs : List Value)
  | dict (kvs : List (Value × Value))

/-- A raw record / coerced mapping: Python `dict` with arbitrary keys. -/
abbrev RawDict := List (Value × Value)

/-- Whitespace characters recognised by `str.strip` / `\s` (ASCII part). -/
def pyIsSpace (c : Char) : Bool :=
  c = ' ' || c = '\t' || c = '\n' || c = '\x0d' || c = '\x0b' || c = '\x0c'

/-- ASCII `str.lower` on one character. -/
def pyCharLower (c : Char) : Char :=
  if 65 ≤ c.toNat ∧ c.toNat ≤ 90 then Char.ofNat (c.toNat + 32) else c

/-- ASCII `str.upper` on one character. -/
def pyCharUpper (c : Char) : Char :=
  if 97 ≤ c.toNat ∧ c.toNat ≤ 122 then Char.ofNat (c.toNat - 32) else c

/-- `str.lower` (ASCII model). -/
def pyLower (s : String) : String := String.mk (s.data.map pyCharLower)

/-- `str.upper` (ASCII model). -/
def pyUpper (s : String) : String := String.mk (s.data.map pyCharUpper)

/-- Strip the leading run of whitespace from a character list. -/
def stripLeading (l : List Char) : List Char := l.dropWhile pyIsSpace

/-- `str.strip()`: remove surrounding whitespace. -/
def pyStripL (l : List Char) : List Char :=
  ((stripLeading l).reverse.dropWhile pyIsSpace).reverse

/-- `str.strip()` on a `String`. -/
def pyStrip (s : String) : String := String.mk (pyStripL s.data)

/-- Replace every maximal run of whitespace by a single space
(`_WHITESPACE_RE.sub(" ", text)`); the flag records whether the previous
character was whitespace. -/
def collapseWsAux : Bool → List Char → List Char
  | _, [] => []
  | prevSp, c :: rest =>
    if pyIsSpace c then
      if prevSp then collapseWsAux true rest
      else ' ' :: collapseWsAux true rest
    else c :: collapseWsAux false rest

/-- Collapse internal whitespace runs to single spaces. -/
def collapseWs (s : String) : String := String.mk (collapseWsAux false s.data)

/-- Minimal UTF-8 decoder with invalid bytes ignored
(`bytes.decode("utf-8", errors="ignore")`), driven by fuel for
structural recursion; claims only exercise ASCII inputs. -/
def utf8DecodeIgnoreAux : Nat → List Nat → List Char
  | 0, _ => []
  | _, [] => []
  | fuel + 1, b :: rest =>
    if b < 128 then Char.ofNat b :: utf8DecodeIgnoreAux fuel rest
    else if 192 ≤ b ∧ b < 224 then
      match rest with
      | b2 :: rest2 =>
        if 128 ≤ b2 ∧ b2 < 192 then
          Char.ofNat ((b - 192) * 64 + (b2 - 128)) :: utf8DecodeIgnoreAux fuel rest2
        else utf8DecodeIgnoreAux fuel rest
      | [] => []
    else if 224 ≤ b ∧ b < 240 then
      match rest with
      | b2 :: b3 :: rest3 =>
        if (128 ≤ b2 ∧ b2 < 192) ∧ (128 ≤ b3 ∧ b3 < 192) then
          Char.ofNat ((b - 224) * 4096 + (b2 - 128) * 64 + (b3 - 128)) ::
            utf8DecodeIgnoreAux fuel rest3
        else utf8DecodeIgnoreAux fuel rest
      | _ => []
    else utf8DecodeIgnoreAux fuel rest

/-- `bytes.decode("utf-8", errors="ignore")` (model). -/
def utf8DecodeIgnore (bs : List Nat) : String :=
  String.mk (utf8DecodeIgnoreAux (bs.length + 1) bs)

/-- Decimal digit characters of a natural number. -/
def natDigits (n : Nat) : List Char := (toString n).data

/-- `str(float)` (Python prints integral floats with a trailing `.0`). -/
def floatStr : PyFloat → String
  | .nan => "nan"
  | .inf => "inf"
  | .ninf => "-inf"
  | .finite m e =>
    let sign := if m < 0 then "-" else ""
    let digits := natDigits m.natAbs
    let digits := if digits.length ≤ e then
        List.replicate (e + 1 - digits.length) '0' ++ digits else digits
    let intPart := digits.take (digits.length - e)
    let fracPart := digits.drop (digits.length - e)
    if e = 0 then sign ++ String.mk digits ++ ".0"
    else sign ++ String.mk intPart ++ "." ++ String.mk fracPart

/-- `str(Decimal)` (model; claims never depend on its exact output). -/
def decimalStr : PyDecimal → String
  | .nan => "NaN"
  | .inf => "Infinity"
  | .ninf => "-Infinity"
  | .fin m e => floatStr (.finite m e)

/-- `str(value)` for the scalar shapes that can reach it. -/
def pyStr : Value → String
  | .none => "None"
  | .bool b => if b then "True" else "False"
  | .int n => toString n
  | .float f => floatStr f
  | .str s => s
  | .bytes _ => "bytes"
  | .decimal d => decimalStr d
  | .list _ => "list"
  | .dict _ => "dict"

/-- The string members of `_NULL_TOKENS` (the set also contains `None`). -/
def nullTokenStrings : List String := ["", " ", "na", "n/a", "null", "none", "unknown"]

/-- `value in _NULL_TOKENS`: a Python set-membership test.  It hashes
the value first, so unhashable values (lists, dicts) raise `TypeError`;
otherwise only `None` and the exact (case-sensitive) token strings
are members. -/
def nullTokenCheck : Value → Except PyError Bool
  | .list _ => .error .typeError
  | .dict _ => .error .typeError
  | .none => .ok true
  | .str s => .ok (nullTokenStrings.contains s)
  | _ => .ok false

/-- `normalize_string` from `src/utils/cleaning.py`. -/
def normalize_string (value : Value) : Except PyError (Option String) := do
  if (← nullTokenCheck value) then
    return Option.none
  let value := match value with
    | .bytes bs => Value.str (utf8DecodeIgnore bs)
    | v => v
  match value with
  | .str s =>
    let text := pyStrip s
    if text = "" then return Option.none
    return some (collapseWs text)
  | v => return some (pyStr v)

/-- `_BOOLEAN_TRUE`. -/
def booleanTrue : List String := ["y", "yes", "true", "1"]

/-- `_BOOLEAN_FALSE`. -/
def booleanFalse : List String := ["n", "no", "false", "0"]

/-- `normalize_bool` from `src/utils/cleaning.py`.  `isinstance(value,
(int, float))` is true for Python bools, but the dedicated `bool`
branch runs first. -/
def normalize_bool (value : Value) : Except PyError (Option Bool) := do
  if (← nullTokenCheck value) then
    return Option.none
  match value with
  | .bool b => return some b
  | .int n => return some (n ≠ 0)
  | .float f =>
    match f with
    | .nan => return Option.none
    | .inf => return some true
    | .ninf => return some true
    | .finite m _ => return some (m ≠ 0)
  | .str _ | .bytes _ => do
    match (← normalize_string value) with
    | Option.none => return Option.none
    | some text =>
      let lowered := pyLower text
      if booleanTrue.contains lowered then return some true
      else if booleanFalse.contains lowered then return some false
      else return Option.none
  | _ => return Option.none

/-- `_NUMBER_WORDS`. -/
def numberWords : List (String × Nat) :=
  [("zero", 0), ("one", 1), ("two", 2), ("three", 3), ("four", 4), ("five", 5),
   ("six", 6), ("seven", 7), ("eight", 8), ("nine", 9), ("ten", 10),
   ("eleven", 11), ("twelve", 12)]

/-- Remove the first `n` occurrences of `c` (`str.replace(c, "", n)`). -/
def removeFirstN (c : Char) : Nat → List Char → List Char
  | _, [] => []
  | 0, l => l
  | n + 1, x :: rest =>
    if x = c then removeFirstN c n rest else x :: removeFirstN c (n + 1) rest

/-- Keep the first `.`, join the remaining dot-separated pieces
(`first + "." + "".join(rest)` after `split(".")`). -/
def collapseDots (l : List Char) : List Char :=
  let parts := (String.mk l).split (fun c => c = '.') |>.map String.data
  match parts with
  | [] => []
  | first :: rest => first ++ '.' :: rest.flatten

/-- `_extract_number_from_string`: drop every character other than
digits, `-`, `.`; keep only the last `-`; keep only the first `.`. -/
def extractNumberFromString (s : String) : String :=
  let cleaned := s.data.filter (fun c => c.isDigit || c = '-' || c = '.')
  let dashCount := cleaned.count '-'
  let cleaned := if dashCount > 1 then removeFirstN '-' (dashCount - 1) cleaned else cleaned
  let dotCount := cleaned.count '.'
  let cleaned := if dotCount > 1 then collapseDots cleaned else cleaned
  String.mk cleaned

/-- Value of a list of decimal digit characters. -/
def digitsToNat (l : List Char) : Nat :=
  l.foldl (fun acc c => acc * 10 + (c.toNat - 48)) 0

/-- `Decimal(candidate)` on a string made of digits, `-`, `.`:
an optional leading sign, then digits with at most one point and at
least one digit; anything else raises `InvalidOperation` (`Option.none`
here, caught by the caller). -/
def parseDecimal (s : String) : Option (Int × Nat) :=
  let l := s.data
  let (neg, l) := match l with
    | '-' :: rest => (true, rest)
    | _ => (false, l)
  if l.any (fun c => c = '-') then Option.none
  else
    let intPart := l.takeWhile (fun c => c ≠ '.')
    let rest := l.dropWhile (fun c => c ≠ '.')
    let fracPart := match rest with
      | '.' :: f => some f
      | _ => Option.none
    let frac := fracPart.getD []
    if (fracPart.isNone ∧ rest ≠ []) then Option.none
    else if frac.any (fun c => c = '.') then Option.none
    else
      let digits := intPart ++ frac
      if digits = [] then Option.none
      else if digits.all Char.isDigit then
        let m : Int := Int.ofNat (digitsToNat digits)
        some ((if neg then -m else m), frac.length)
      else Option.none

/-- `normalize_decimal` from `src/utils/cleaning.py`.  Note that a
native bool falls into the `isinstance(value, (int, float))` branch and
`Decimal(str(True))` raises `InvalidOperation`, uncaught. -/
def normalize_decimal (value : Value) : Except PyError (Option PyDecimal) := do
  if (← nullTokenCheck value) then
    return Option.none
  match value with
  | .decimal d => return some d
  | .bool _ => Except.error .invalidOperation
  | .int n => return some (.fin n 0)
  | .float f =>
    match f with
    | .nan => return Option.none
    | .inf => return some .inf
    | .ninf => return some .ninf
    | .finite m e => return some (.fin m e)
  | .str _ | .bytes _ => do
    match (← normalize_string value) with
    | Option.none => return Option.none
    | some text =>
      let lowered := pyLower text
      match numberWords.lookup lowered with
      | some w => return some (.fin (Int.ofNat w) 0)
      | Option.none =>
        let candidate := extractNumberFromString lowered
        if candidate = "" then return Option.none
        match parseDecimal candidate with
        | some me => return some (.fin me.1 me.2)
        | Option.none => return Option.none
  | _ => return Option.none

/-- `ROUND_HALF_UP` (half away from zero) of m * 10^(-e). -/
def roundHalfUp (m : Int) (e : Nat) : Int :=
  if e = 0 then m
  else
    let p := 10 ^ e
    let r : Nat := (m.natAbs + p / 2) / p
    if m < 0 then -(Int.ofNat r) else Int.ofNat r

/-- `normalize_int`: round the decimal half-away-from-zero.
`int(Decimal('Infinity'))` raises `OverflowError`, which the `except`
clause does not catch; `int(Decimal('NaN'))` raises `InvalidOperation`,
which it does catch. -/
def normalize_int (value : Value) : Except PyError (Option Int) := do
  match (← normalize_decimal value) with
  | Option.none => return Option.none
  | some d =>
    match d with
    | .nan => return Option.none
    | .inf => Except.error .overflowError
    | .ninf => Except.error .overflowError
    | .fin m e => return some (roundHalfUp m e)

/-- `normalize_float`: convert the decimal to a float.  Finite floats
are unbounded in this model (IEEE overflow is out of scope). -/
def normalize_float (value : Value) : Except PyError (Option PyFloat) := do
  match (← normalize_decimal value) with
  | Option.none => return Option.none
  | some d =>
    match d with
    | .nan => return some .nan
    | .inf => return some .inf
    | .ninf => return some .ninf
    | .fin m e => return some (.finite m e)

/-- `ensure_sequence` from `src/utils/cleaning.py`: never raises
(`normalize_string` is only reached with str/bytes input, which cannot
raise in the membership test). -/
def ensure_sequence (value : Value) : List Value :=
  match value with
  | .none => []
  | .str _ | .bytes _ =>
    match normalize_string value with
    | .ok (some text) => [Value.str text]
    | _ => []
  | .dict _ => [value]
  | .list xs => xs
  | v => [v]

/-! ### SHA-256 (`hashlib.sha256(...).hexdigest()`)

An executable big-endian SHA-256 over byte lists, with 32-bit words as
naturals reduced mod 2^32, used by `_build_property_key`. -/

/-- UTF-8 encoding of one character (`str.encode("utf-8")`). -/
def utf8EncodeChar (c : Char) : List Nat :=
  let n := c.toNat
  if n < 128 then [n]
  else if n < 2048 then [192 + n / 64, 128 + n % 64]
  else if n < 65536 then [224 + n / 4096, 128 + (n / 64) % 64, 128 + n % 64]
  else [240 + n / 262144, 128 + (n / 4096) % 64, 128 + (n / 64) % 64, 128 + n % 64]

/-- `str.encode("utf-8")`. -/
def utf8Encode (s : String) : List Nat := s.data.flatMap utf8EncodeChar

/-- Rotate a 32-bit word right by `n`. -/
def rotr (n x : Nat) : Nat :=
  ((x >>> n) ||| (x <<< (32 - n))) % 4294967296

/-- SHA-256 round constants (the fractional parts of the cube roots
of the first 64 primes, as 32-bit words written in decimal). -/
def shaK : List Nat :=
  [1116352408, 1899447441, 3049323471, 3921009573, 961987163,
   1508970993, 2453635748, 2870763221, 3624381080, 310598401,
   607225278, 1426881987, 1925078388, 2162078206, 2614888103,
   3248222580, 3835390401, 4022224774, 264347078, 604807628,
   770255983, 1249150122, 1555081692, 1996064986, 2554220882,
   2821834349, 2952996808, 3210313671, 3336571891, 3584528711,
   113926993, 338241895, 666307205, 773529912, 1294757372,
   1396182291, 1695183700, 1986661051, 2177026350, 2456956037,
   2730485921, 2820302411, 3259730800, 3345764771, 3516065817,
   3600352804, 4094571909, 275423344, 430227734, 506948616,
   659060556, 883997877, 958139571, 1322822218, 1537002063,
   1747873779, 1955562222, 2024104815, 2227730452, 2361852424,
   2428436474, 2756734187, 3204031479, 3329325298]

/-- SHA-256 initial hash state (decimal). -/
def shaH0 : List Nat :=
  [1779033703, 3144134277, 1013904242, 2773480762,
   1359893119, 2600822924, 528734635, 1541459225]

/-- Big-endian bytes of a 64-bit length. -/
def be64 (n : Nat) : List Nat :=
  [(n >>> 56) % 256, (n >>> 48) % 256, (n >>> 40) % 256, (n >>> 32) % 256,
   (n >>> 24) % 256, (n >>> 16) % 256, (n >>> 8) % 256, n % 256]

/-- SHA-256 message padding to a multiple of 64 bytes. -/
def shaPad (msg : List Nat) : List Nat :=
  let padZeros := (119 - msg.length % 64) % 64
  msg ++ 0x80 :: List.replicate padZeros 0 ++ be64 (msg.length * 8)

/-- Chunk a byte list into 64-byte blocks (fuel = length keeps the
recursion structural so the kernel can evaluate it). -/
def toBlocksAux : Nat → List Nat → List (List Nat)
  | _, [] => []
  | 0, _ => []
  | fuel + 1, l => l.take 64 :: toBlocksAux fuel (l.drop 64)

/-- Chunk into 64-byte blocks. -/
def toBlocks (l : List Nat) : List (List Nat) := toBlocksAux l.length l

/-- Read the 16 big-endian 32-bit words of one block. -/
def toWordsAux : Nat → List Nat → List Nat
  | _, [] => []
  | 0, _ => []
  | fuel + 1, l =>
    match l with
    | b0 :: b1 :: b2 :: b3 :: rest =>
      (b0 <<< 24 + b1 <<< 16 + b2 <<< 8 + b3) :: toWordsAux fuel rest
    | _ => []

/-- Big-endian 32-bit words of a block. -/
def toWords (l : List Nat) : List Nat := toWordsAux l.length l

/-- The next word of the SHA-256 message schedule. -/
def shaNextWord (w : List Nat) : Nat :=
  let i := w.length
  let w15 := w.getD (i - 15) 0
  let w2 := w.getD (i - 2) 0
  let s0 := (rotr 7 w15) ^^^ (rotr 18 w15) ^^^ (w15 >>> 3)
  let s1 := (rotr 17 w2) ^^^ (rotr 19 w2) ^^^ (w2 >>> 10)
  (w.getD (i - 16) 0 + s0 + w.getD (i - 7) 0 + s1) % 4294967296

/-- Extend the 16-word schedule by `n` more words. -/
def shaExtend : Nat → List Nat → List Nat
  | 0, w => w
  | n + 1, w => shaExtend n (w ++ [shaNextWord w])

/-- One SHA-256 compression round; state is the list [a,b,c,d,e,f,g,h]. -/
def shaRound (st : List Nat) (ki wi : Nat) : List Nat :=
  match st with
  | [a, b, c, d, e, f, g, h] =>
    let s1 := (rotr 6 e) ^^^ (rotr 11 e) ^^^ (rotr 25 e)
    let ch := (e &&& f) ^^^ ((4294967295 - e) &&& g)
    let temp1 := (h + s1 + ch + ki + wi) % 4294967296
    let s0 := (rotr 2 a) ^^^ (rotr 13 a) ^^^ (rotr 22 a)
    let maj := (a &&& b) ^^^ (a &&& c) ^^^ (b &&& c)
    let temp2 := (s0 + maj) % 4294967296
    [(temp1 + temp2) % 4294967296, a, b, c, (d + temp1) % 4294967296, e, f, g]
  | other => other

/-- Compress one 64-byte block into the running hash state. -/
def shaCompress (h : List Nat) (block : List Nat) : List Nat :=
  let w := shaExtend 48 (toWords block)
  let stf := (w.zip shaK).foldl (fun st p => shaRound st p.2 p.1) h
  (h.zip stf).map (fun p => (p.1 + p.2) % 4294967296)

/-- SHA-256 digest as eight 32-bit words. -/
def sha256Words (msg : List Nat) : List Nat :=
  (toBlocks (shaPad msg)).foldl shaCompress shaH0

/-- Lowercase hex digit. -/
def hexChar (n : Nat) : Char :=
  "0123456789abcdef".data.getD n '0'

/-- Eight lowercase hex characters of one 32-bit word. -/
def wordHex (w : Nat) : List Char :=
  [hexChar ((w >>> 28) % 16), hexChar ((w >>> 24) % 16), hexChar ((w >>> 20) % 16),
   hexChar ((w >>> 16) % 16), hexChar ((w >>> 12) % 16), hexChar ((w >>> 8) % 16),
   hexChar ((w >>> 4) % 16), hexChar (w % 16)]

/-- `hashlib.sha256(bs).hexdigest()`. -/
def sha256Hex (msg : List Nat) : String :=
  String.mk ((sha256Words msg).flatMap wordHex)

/-- First 16 hex characters of the SHA-256 of a string, as used by
`_build_property_key` (`hexdigest()[:16]`). -/
def sha256Hex16 (s : String) : String :=
  String.mk (((sha256Words (utf8Encode s)).flatMap wordHex).take 16)

/-! ### Coercion of scenario elements to mappings (`dict(item)`) -/

/-- A Python value usable as a dict key (hashable). -/
def keyHashable : Value → Bool
  | .list _ => false
  | .dict _ => false
  | _ => true

/-- Turn one element of a dict-update sequence into a key/value pair:
it must itself be a two-element sequence (`ValueError` otherwise), and
the key must be hashable (`TypeError` otherwise). -/
def pairOfElem : Value → Except PyError (Value × Value)
  | .list [k, v] => if keyHashable k then .ok (k, v) else .error .typeError
  | .list _ => .error .valueError
  | .str s =>
    match s.data with
    | [c1, c2] => .ok (.str (String.mk [c1]), .str (String.mk [c2]))
    | _ => .error .valueError
  | _ => .error .typeError

/-- Equality of hashable (scalar) dict keys; structural on the
non-recursive constructors.  (Python's cross-type numeric key equality,
e.g. `1 == 1.0 == True`, is not modelled; no claim depends on it.) -/
def scalarEq : Value → Value → Bool
  | .none, .none => true
  | .bool a, .bool b => a = b
  | .int a, .int b => a = b
  | .float a, .float b => a = b
  | .str a, .str b => a = b
  | .bytes a, .bytes b => a = b
  | .decimal a, .decimal b => a = b
  | _, _ => false

/-- `dict.__setitem__`: overwrite the value at an existing key keeping
its position, otherwise append. -/
def dictInsertV (m : RawDict) (k v : Value) : RawDict :=
  if m.any (fun p => scalarEq p.1 k) then
    m.map (fun p => if scalarEq p.1 k then (p.1, v) else p)
  else m ++ [(k, v)]

/-- `dict(item)`: identity on mappings, key/value-pair iteration on
sequences, `TypeError` on non-iterables and other shapes. -/
def dictCoerce : Value → Except PyError RawDict
  | .dict kvs => .ok kvs
  | .list xs => do
    let ps ← xs.mapM pairOfElem
    return ps.foldl (fun m p => dictInsertV m p.1 p.2) []
  | .str s => if s = "" then .ok [] else .error .valueError
  | .bytes bs => if bs = [] then .ok [] else .error .typeError
  | _ => .error .typeError

/-- `iter_scenarios` inner enumeration: pair each coerced element with
its 1-based rank (`enumerate(items)` plus `index + 1`). -/
def iterScenariosGo (i : Nat) : List Value → Except PyError (List (Nat × RawDict))
  | [] => .ok []
  | x :: xs => do
    let d ← dictCoerce x
    let rest ← iterScenariosGo (i + 1) xs
    return (i + 1, d) :: rest

/-- `iter_scenarios` from `src/models/property.py`. -/
def iter_scenarios (rawValue : Value) : Except PyError (List (Nat × RawDict)) :=
  iterScenariosGo 0 (ensure_sequence rawValue)

/-! ### Record models (`src/models/property.py`)

Each pydantic model is embedded as a schema: a list of field
specifications (name, optional populate-alias, normalization kind).
Construction validates a payload against the schema in field order;
fields absent from the payload keep their `None` default (pydantic does
not validate defaults). -/

/-- A normalized (canonically typed) field value. -/
inductive NormValue where
  | none
  | str (s : String)
  | bool (b : Bool)
  | int (n : Int)
  | float (f : PyFloat)
  | dec (d : PyDecimal)
  deriving DecidableEq, Repr

/-- A keyword payload passed to a model constructor. -/
abbrev Payload := List (String × Value)

/-- A constructed record: field name to normalized value, in schema
order. -/
abbrev Record := List (String × NormValue)

/-- How one model field validates and normalizes its raw value. -/
inductive FieldKind where
  | keyStr
  | rankInt
  | strF
  | zipF
  | boolF
  | decF
  | intF
  | floatF
  | yearF
  deriving DecidableEq, Repr

/-- One pydantic field: name, populate-alias (tried first), kind. -/
structure FieldSpec where
  name : String
  aliasName : Option String
  kind : FieldKind

/-- Strict UTF-8 decode (`bytes` to `str` in pydantic lax mode);
`Option.none` on invalid input. -/
def utf8DecodeStrictAux : Nat → List Nat → Option (List Char)
  | 0, _ => Option.none
  | _, [] => some []
  | fuel + 1, b :: rest =>
    if b < 128 then (utf8DecodeStrictAux fuel rest).map (Char.ofNat b :: ·)
    else if 194 ≤ b ∧ b < 224 then
      match rest with
      | b2 :: rest2 =>
        if 128 ≤ b2 ∧ b2 < 192 then
          (utf8DecodeStrictAux fuel rest2).map
            (Char.ofNat ((b - 192) * 64 + (b2 - 128)) :: ·)
        else Option.none
      | [] => Option.none
    else if 224 ≤ b ∧ b < 240 then
      match rest with
      | b2 :: b3 :: rest3 =>
        if (128 ≤ b2 ∧ b2 < 192) ∧ (128 ≤ b3 ∧ b3 < 192) then
          (utf8DecodeStrictAux fuel rest3).map
            (Char.ofNat ((b - 224) * 4096 + (b2 - 128) * 64 + (b3 - 128)) :: ·)
        else Option.none
      | _ => Option.none
    else Option.none

/-- Strict UTF-8 decode of a byte list. -/
def utf8DecodeStrict (bs : List Nat) : Option String :=
  (utf8DecodeStrictAux (bs.length + 1) bs).map String.mk

/-- Pydantic lax validation of an `Optional[str]` field: accepts
`None`, strings, and UTF-8 bytes; other types fail validation (v2 does
not coerce numbers to strings). -/
def coreStrOpt : Value → Except PyError (Option String)
  | .none => .ok Option.none
  | .str s => .ok (some s)
  | .bytes bs =>
    match utf8DecodeStrict bs with
    | some s => .ok (some s)
    | Option.none => .error .validationError
  | _ => .error .validationError

/-- Pydantic lax validation of a required `str` field. -/
def coreStrReq (v : Value) : Except PyError String := do
  match (← coreStrOpt v) with
  | some s => .ok s
  | Option.none => .error .validationError

/-- Pydantic lax validation of a required `int` field: exact integers
only (bools rejected; integral floats and digit strings accepted). -/
def coreIntReq : Value → Except PyError Int
  | .bool _ => .error .validationError
  | .int n => .ok n
  | .float (.finite m e) =>
    if m % (10 : Int) ^ e = 0 then .ok (m / (10 : Int) ^ e) else .error .validationError
  | .str s =>
    match s.data with
    | '-' :: ds => if ds ≠ [] ∧ ds.all Char.isDigit
        then .ok (-(Int.ofNat (digitsToNat ds))) else .error .validationError
    | ds => if ds ≠ [] ∧ ds.all Char.isDigit
        then .ok (Int.ofNat (digitsToNat ds)) else .error .validationError
  | _ => .error .validationError

/-- `_normalize_year` (`PropertyRecord`): drop the normalized year when
it is truthy (non-zero) and out of the `(1700, currentYear]` window.
Note the Python truthiness test `if year and ...`: the years `0` and
`1700` pass through. -/
def pNormalizeYear (currentYear : Int) (v : Value) : Except PyError (Option Int) := do
  match (← normalize_int v) with
  | Option.none => return Option.none
  | some year =>
    if year ≠ 0 ∧ year < 1700 then return Option.none
    else if year ≠ 0 ∧ year > currentYear then return Option.none
    else return some year

/-- `str.zfill(5)` on a digit string. -/
def zfill5 (l : List Char) : List Char :=
  if l.length < 5 then List.replicate (5 - l.length) '0' ++ l else l

/-- `sanitized.isdigit()`: non-empty and all digits. -/
def pyIsDigitStr (l : List Char) : Bool := l ≠ [] && l.all Char.isDigit

/-- The wrap stage of `_normalize_zip` (`PropertyRecord`), applied to
the result of the inner string validation: strip spaces and hyphens; if
the stripped form is purely numeric, zero-pad it to 5 digits; otherwise
keep the unstripped string. -/
def pNormalizeZip (zipStr : Option String) : Option String :=
  match zipStr with
  | Option.none => Option.none
  | some z =>
    let sanitized := z.data.filter (fun c => c ≠ ' ' ∧ c ≠ '-')
    if pyIsDigitStr sanitized then some (String.mk (zfill5 sanitized))
    else some z

/-- The string-field pipeline: core `Optional[str]` validation then the
`normalize_string` after-validator. -/
def strFieldPipeline (v : Value) : Except PyError (Option String) := do
  let s0 ← coreStrOpt v
  normalize_string (match s0 with | some s => Value.str s | Option.none => Value.none)

/-- Validate and normalize one field value according to its kind. -/
def normalizeField (currentYear : Int) (kind : FieldKind) (v : Value) :
    Except PyError NormValue := do
  match kind with
  | .keyStr => do
    let s ← coreStrReq v
    return .str s
  | .rankInt => do
    let n ← coreIntReq v
    return .int n
  | .strF => do
    match (← strFieldPipeline v) with
    | some t => return .str t
    | Option.none => return .none
  | .zipF => do
    match pNormalizeZip (← strFieldPipeline v) with
    | some t => return .str t
    | Option.none => return .none
  | .boolF => do
    match (← normalize_bool v) with
    | some b => return .bool b
    | Option.none => return .none
  | .decF => do
    match (← normalize_decimal v) with
    | some d => return .dec d
    | Option.none => return .none
  | .intF => do
    match (← normalize_int v) with
    | some n => return .int n
    | Option.none => return .none
  | .floatF => do
    match (← normalize_float v) with
    | some f => return .float f
    | Option.none => return .none
  | .yearF => do
    match (← pNormalizeYear currentYear v) with
    | some n => return .int n
    | Option.none => return .none

/-- Look a field up in the payload: the populate-alias is tried first,
then the field name (`populate_by_name=True`). -/
def payloadLookup (payload : Payload) (spec : FieldSpec) : Option Value :=
  match spec.aliasName with
  | some a =>
    match payload.lookup a with
    | some v => some v
    | Option.none => payload.lookup spec.name
  | Option.none => payload.lookup spec.name

/-- Construct a model instance from a keyword payload: validate each
schema field in order; a missing optional field keeps its `None`
default, a missing key/rank field is a validation error.  Extra payload
keys are ignored (`extra="ignore"`). -/
def constructRecord (currentYear : Int) (schema : List FieldSpec) (payload : Payload) :
    Except PyError Record :=
  schema.mapM (fun spec => do
    match payloadLookup payload spec with
    | Option.none =>
      match spec.kind with
      | .keyStr => Except.error .validationError
      | .rankInt => Except.error .validationError
      | _ => Except.ok (spec.name, NormValue.none)
    | some v => do
      let nv ← normalizeField currentYear spec.kind v
      return (spec.name, nv))

/-- Field without alias. -/
def fsp (n : String) (k : FieldKind) : FieldSpec := ⟨n, Option.none, k⟩

/-- Field with populate-alias. -/
def fspa (n a : String) (k : FieldKind) : FieldSpec := ⟨n, some a, k⟩

/-- `PropertyRecord` schema (the wall-clock `created_at` column is
omitted, see the header comment). -/
def propertySchema : List FieldSpec :=
  [fsp "property_key" .keyStr,
   fsp "property_title" .strF, fsp "address" .strF, fsp "market" .strF,
   fsp "flood" .strF, fsp "street_address" .strF, fsp "city" .strF,
   fsp "state" .strF, fspa "zip_code" "zip" .zipF, fsp "property_type" .strF,
   fsp "highway" .strF, fsp "train" .strF, fsp "tax_rate" .decF,
   fsp "sqft_basement" .intF, fsp "htw" .strF, fsp "pool" .boolF,
   fsp "commercial" .boolF, fsp "water" .strF, fsp "sewage" .strF,
   fsp "year_built" .yearF, fspa "sqft_mixed_use" "sqft_mu" .intF,
   fsp "sqft_total" .intF, fsp "parking" .strF, fsp "bed" .intF,
   fsp "bath" .floatF, fspa "basement" "basementyesno" .boolF,
   fsp "layout" .strF, fsp "rent_restricted" .boolF,
   fsp "neighborhood_rating" .intF, fsp "latitude" .floatF,
   fsp "longitude" .floatF, fsp "subdivision" .strF,
   fsp "school_average" .floatF]

/-- `LeadRecord` schema. -/
def leadSchema : List FieldSpec :=
  [fsp "property_key" .keyStr,
   fsp "reviewed_status" .strF, fsp "most_recent_status" .strF,
   fsp "source" .strF, fsp "occupancy" .strF, fsp "net_yield" .floatF,
   fsp "irr" .floatF, fsp "selling_reason" .strF,
   fsp "seller_retained_broker" .boolF, fsp "final_reviewer" .strF]

/-- `ValuationRecord` schema. -/
def valuationSchema : List FieldSpec :=
  [fsp "property_key" .keyStr, fsp "scenario_rank" .rankInt,
   fsp "list_price" .decF, fsp "previous_rent" .decF, fsp "arv" .decF,
   fsp "expected_rent" .decF, fsp "rent_zestimate" .decF,
   fsp "low_fmr" .decF, fsp "high_fmr" .decF, fsp "redfin_value" .decF,
   fsp "zestimate" .decF]

/-- `RehabRecord` schema. -/
def rehabSchema : List FieldSpec :=
  [fsp "property_key" .keyStr, fsp "scenario_rank" .rankInt,
   fsp "underwriting_rehab" .decF, fsp "rehab_calculation" .decF,
   fsp "paint" .boolF, fsp "flooring_flag" .boolF,
   fsp "foundation_flag" .boolF, fsp "roof_flag" .boolF,
   fsp "hvac_flag" .boolF, fsp "kitchen_flag" .boolF,
   fsp "bathroom_flag" .boolF, fsp "appliances_flag" .boolF,
   fsp "windows_flag" .boolF, fsp "landscaping_flag" .boolF,
   fsp "trashout_flag" .boolF]

/-- `HOARecord` schema. -/
def hoaSchema : List FieldSpec :=
  [fsp "property_key" .keyStr, fsp "scenario_rank" .rankInt,
   fspa "hoa_amount" "hoa" .decF, fsp "hoa_flag" .boolF]

/-- `TaxRecord` schema. -/
def taxSchema : List FieldSpec :=
  [fsp "property_key" .keyStr, fspa "amount" "taxes" .decF]

/-! ### `DatasetTransformer` (`src/pipeline/transform.py`) -/

/-- `_to_snake_case` character loop: prepend `_` before an uppercase
letter that follows a lowercase one, lowercasing everything; the flag
carries `prev_lower` (`islower()` of the previous original char). -/
def toSnakeCaseGo : Bool → List Char → List Char
  | _, [] => []
  | prevLower, c :: rest =>
    (if c.isUpper ∧ prevLower then ['_', pyCharLower c] else [pyCharLower c]) ++
      toSnakeCaseGo c.isLower rest

/-- `snake.replace("__", "_")`: non-overlapping left-to-right. -/
def replaceDoubleUnderscore : List Char → List Char
  | '_' :: '_' :: rest => '_' :: replaceDoubleUnderscore rest
  | c :: rest => c :: replaceDoubleUnderscore rest
  | [] => []

/-- `DatasetTransformer._to_snake_case`. -/
def toSnakeCase (s : String) : String :=
  let sanitized := s.data.map (fun c => if c = ' ' ∨ c = '-' then '_' else c)
  String.mk (replaceDoubleUnderscore (toSnakeCaseGo false sanitized))

/-- Insert into a string-keyed mapping, overwriting in place. -/
def dictInsertS (m : List (String × String)) (k v : String) : List (String × String) :=
  if m.any (fun p => p.1 = k) then
    m.map (fun p => if p.1 = k then (p.1, v) else p)
  else m ++ [(k, v)]

/-- The external field configuration: rows of (target table, column
name cell).  The target-table cell is pre-stringified
(`astype(str)`). -/
abbrev FieldConfig := List (String × Value)

/-- `DatasetTransformer._build_field_map`: keep rows whose target table
matches case-insensitively, skip non-string column names, use the
override name when present (and non-empty) else snake-case. -/
def buildFieldMap (cfg : Option FieldConfig) (tableName : String)
    (overrides : List (String × String)) : List (String × String) :=
  match cfg with
  | Option.none => []
  | some rows =>
    ((rows.filter (fun row => pyLower row.1 = pyLower tableName)).map (·.2)).foldl
      (fun mapping cell =>
        match cell with
        | .str columnName =>
          let normalized := match overrides.lookup columnName with
            | some ov => if ov = "" then toSnakeCase columnName else ov
            | Option.none => toSnakeCase columnName
          dictInsertS mapping columnName normalized
        | _ => mapping) []

/-- The per-entity field maps computed by `DatasetTransformer.__init__`. -/
structure Transformer where
  propertyFields : List (String × String)
  leadFields : List (String × String)
  valuationFields : List (String × String)
  rehabFields : List (String × String)
  hoaFields : List (String × String)
  taxFields : List (String × String)

/-- Overrides passed for the property table. -/
def propertyOverrides : List (String × String) :=
  [("Zip", "zip_code"), ("SQFT_MU", "sqft_mixed_use"), ("BasementYesNo", "basement")]

/-- Overrides passed for the taxes table. -/
def taxOverrides : List (String × String) := [("Taxes", "amount")]

/-- `DatasetTransformer.__init__`. -/
def mkTransformer (cfg : Option FieldConfig) : Transformer :=
  { propertyFields := buildFieldMap cfg "property" propertyOverrides
    leadFields := buildFieldMap cfg "leads" []
    valuationFields := buildFieldMap cfg "valuation" []
    rehabFields := buildFieldMap cfg "rehab" []
    hoaFields := buildFieldMap cfg "hoa" []
    taxFields := buildFieldMap cfg "taxes" taxOverrides }

/-- `record.get(key)` with string key against arbitrary dict keys. -/
def rawGet (r : RawDict) (key : String) : Value :=
  match r.find? (fun p => match p.1 with | .str s => s = key | _ => false) with
  | some p => p.2
  | Option.none => .none

/-- Insert into a keyword payload, overwriting in place. -/
def dictInsertP (m : Payload) (k : String) (v : Value) : Payload :=
  if m.any (fun p => p.1 = k) then
    m.map (fun p => if p.1 = k then (p.1, v) else p)
  else m ++ [(k, v)]

/-- `DatasetTransformer._project_fields`: copy each mapped source field
present in the source under its target name, in mapping order. -/
def projectFields (source : RawDict) (mapping : List (String × String)) : Payload :=
  if source.isEmpty then []
  else
    mapping.foldl (fun projected pair =>
      if source.any (fun p => match p.1 with | .str s => s = pair.1 | _ => false) then
        dictInsertP projected pair.2 (rawGet source pair.1)
      else projected) []

/-- `value is not None and value != ""`. -/
def meaningfulValue : Value → Bool
  | .none => false
  | .str s => s ≠ ""
  | _ => true

/-- `DatasetTransformer._has_meaningful_payload`: some non-skipped
entry whose raw value is neither `None` nor the empty string. -/
def hasMeaningfulPayload (payload : Payload) (skipKeys : List String) : Bool :=
  payload.any (fun p => !(skipKeys.contains p.1) && meaningfulValue p.2)

/-- The four address component keys of `_build_property_key`. -/
def addrKeys : List String := ["Street_Address", "City", "State", "Zip"]

/-- One address component from a field value: the normalized,
lower-cased value when truthy. -/
def componentOfV (v : Value) : Except PyError (Option String) := do
  match (← normalize_string v) with
  | some value => if value ≠ "" then return some (pyLower value) else return Option.none
  | Option.none => return Option.none

/-- One address component of the record at a key. -/
def componentOf (r : RawDict) (key : String) : Except PyError (Option String) :=
  componentOfV (rawGet r key)

/-- Python `or` on optional strings: drop falsy (`None`/empty). -/
def truthyOpt : Option String → Option String
  | some s => if s = "" then Option.none else some s
  | Option.none => Option.none

/-- The title/address fallback of `_build_property_key`
(`normalize_string(title) or normalize_string(address)` with
short-circuit), as a function of the two field values. -/
def fallbackOfV (title addr : Value) : Except PyError (Option String) := do
  let t ← normalize_string title
  match truthyOpt t with
  | some s => return some s
  | Option.none => do
    let a ← normalize_string addr
    return truthyOpt a

/-- The title/address fallback of a record. -/
def fallbackOf (r : RawDict) : Except PyError (Option String) :=
  fallbackOfV (rawGet r "Property_Title") (rawGet r "Address")

/-- The `(state or "XX").upper()` prefix stage of
`_build_property_key`, as a function of the raw state value. -/
def stateTagV (v : Value) : Except PyError String := do
  let state ← normalize_string v
  return pyUpper (match state with
    | some s => if s = "" then "XX" else s
    | Option.none => "XX")

/-- `DatasetTransformer._build_property_key`. -/
def buildPropertyKey (record : RawDict) (index : Nat) : Except PyError String := do
  let c1 ← componentOf record "Street_Address"
  let c2 ← componentOf record "City"
  let c3 ← componentOf record "State"
  let c4 ← componentOf record "Zip"
  let components := [c1, c2, c3, c4].filterMap id
  let components ← if components.isEmpty then do
      let fb ← fallbackOf record
      pure (match fb with | some f => [pyLower f] | Option.none => [])
    else pure components
  let seed := if components.isEmpty then "record-" ++ toString index
    else String.intercalate "||" components
  let digest := sha256Hex16 seed
  let statePart ← stateTagV (rawGet record "State")
  return statePart ++ "-" ++ digest

/-- The entities one raw record contributes to the bundle. -/
structure PerOut where
  prop : Record
  lead : Option Record
  tax : Option Record
  vals : List Record
  rehabs : List Record
  hoas : List Record
  deriving DecidableEq, Repr

/-- `{"property_key": key, **projected}`: later keys overwrite. -/
def mkPayload (k : String) (projected : Payload) : Payload :=
  projected.foldl (fun m p => dictInsertP m p.1 p.2) [("property_key", Value.str k)]

/-- `{"property_key": key, "scenario_rank": rank, **projected}`. -/
def mkScenarioPayload (k : String) (rank : Nat) (projected : Payload) : Payload :=
  projected.foldl (fun m p => dictInsertP m p.1 p.2)
    [("property_key", Value.str k), ("scenario_rank", Value.int (Int.ofNat rank))]

/-- One scenario-category loop of `DatasetTransformer.transform`:
project, filter by meaningful payload, construct. -/
def scenarioOuts (cy : Int) (schema : List FieldSpec) (fields : List (String × String))
    (k : String) : List (Nat × RawDict) → Except PyError (List Record)
  | [] => .ok []
  | (rank, scenario) :: rest => do
    let payload := mkScenarioPayload k rank (projectFields scenario fields)
    if hasMeaningfulPayload payload ["property_key", "scenario_rank"] then do
      let entity ← constructRecord cy schema payload
      let tail ← scenarioOuts cy schema fields k rest
      return entity :: tail
    else scenarioOuts cy schema fields k rest

/-- The body of one loop iteration of `DatasetTransformer.transform`
for a non-duplicate record: what that record contributes. -/
def perRecord (t : Transformer) (cy : Int) (record : RawDict) (propertyKey : String) :
    Except PyError PerOut := do
  let propertyPayload := mkPayload propertyKey (projectFields record t.propertyFields)
  let propertyModel ← constructRecord cy propertySchema propertyPayload
  let leadPayload := mkPayload propertyKey (projectFields record t.leadFields)
  let lead ← if hasMeaningfulPayload leadPayload ["property_key"] then do
      let l ← constructRecord cy leadSchema leadPayload
      pure (some l)
    else pure Option.none
  let taxesPayload := mkPayload propertyKey (projectFields record t.taxFields)
  let tax ← if hasMeaningfulPayload taxesPayload ["property_key"] then do
      let x ← constructRecord cy taxSchema taxesPayload
      pure (some x)
    else pure Option.none
  let valuationScenarios ← iter_scenarios (rawGet record "Valuation")
  let vals ← scenarioOuts cy valuationSchema t.valuationFields propertyKey valuationScenarios
  let rehabScenarios ← iter_scenarios (rawGet record "Rehab")
  let rehabOut ← scenarioOuts cy rehabSchema t.rehabFields propertyKey rehabScenarios
  let hoaScenarios ← iter_scenarios (rawGet record "HOA")
  let hoaOut ← scenarioOuts cy hoaSchema t.hoaFields propertyKey hoaScenarios
  return ⟨propertyModel, lead, tax, vals, rehabOut, hoaOut⟩

/-- `NormalizedBundle`: the six output collections. -/
structure NormalizedBundle where
  properties : List Record
  leads : List Record
  valuations : List Record
  rehabs : List Record
  hoas : List Record
  taxes : List Record
  deriving DecidableEq, Repr

/-- The empty bundle. -/
def emptyBundle : NormalizedBundle := ⟨[], [], [], [], [], []⟩

/-- Prepend one record's contribution to a bundle (keeping input
order, as the accumulating loop does). -/
def consOut (out : PerOut) (b : NormalizedBundle) : NormalizedBundle :=
  ⟨out.prop :: b.properties,
   out.lead.toList ++ b.leads,
   out.vals ++ b.valuations,
   out.rehabs ++ b.rehabs,
   out.hoas ++ b.hoas,
   out.tax.toList ++ b.taxes⟩

/-- The loop of `DatasetTransformer.transform`, with the 1-based
`enumerate` index and the `seen_properties` set made explicit. -/
def transformGo (t : Transformer) (cy : Int) (i : Nat) (seen : List String) :
    List RawDict → Except PyError NormalizedBundle
  | [] => .ok emptyBundle
  | record :: rest => do
    let propertyKey ← buildPropertyKey record i
    if seen.contains propertyKey then transformGo t cy (i + 1) seen rest
    else do
      let out ← perRecord t cy record propertyKey
      let b ← transformGo t cy (i + 1) (propertyKey :: seen) rest
      return consOut out b

/-- `DatasetTransformer.transform`. -/
def transform (t : Transformer) (cy : Int) (records : List RawDict) :
    Except PyError NormalizedBundle :=
  transformGo t cy 1 [] records

/-- `DatasetTransformer.iter_property_records`: transform, then yield
the property collection. -/
def iter_property_records (t : Transformer) (cy : Int) (data : List RawDict) :
    Except PyError (List Record) := do
  let bundle ← transform t cy data
  return bundle.properties

/-- The stored `property_key` of a constructed record. -/
def keyOf (r : Record) : String :=
  match r.lookup "property_key" with
  | some (.str s) => s
  | _ => ""

/-! ### Reference dedup semantics (for claim C1)

Definitions following the spec's words: annotate records with their
original 1-based position, keep only the first occurrence of each
derived key, then assemble every surviving record's contribution. -/

/-- Keep the first record of each derived key, dropping later
duplicates entirely (positions keep counting across dropped records). -/
def collectSurvivors (i : Nat) (seen : List String) :
    List RawDict → Except PyError (List (String × RawDict))
  | [] => .ok []
  | record :: rest => do
    let k ← buildPropertyKey record i
    if seen.contains k then collectSurvivors (i + 1) seen rest
    else do
      let tail ← collectSurvivors (i + 1) (k :: seen) rest
      return (k, record) :: tail

/-- Assemble the contributions of the surviving records, in order. -/
def assembleSurvivors (t : Transformer) (cy : Int) :
    List (String × RawDict) → Except PyError NormalizedBundle
  | [] => .ok emptyBundle
  | (k, record) :: rest => do
    let out ← perRecord t cy record k
    let b ← assembleSurvivors t cy rest
    return consOut out b

/-- Spec-level dedup semantics: drop every record whose key was already
derived by an earlier record, then assemble the survivors. -/
def transformDedupFirst (t : Transformer) (cy : Int) (records : List RawDict) :
    Except PyError NormalizedBundle := do
  let survivors ← collectSurvivors 1 [] records
  assembleSurvivors t cy survivors

/-! ### Support definitions for the claims -/

/-- Whether an `Except` computation succeeded. -/
def exceptOk {α : Type} : Except PyError α → Bool
  | .ok _ => true
  | .error _ => false

/-- Hashable values (everything except lists and dicts). -/
def hashableV : Value → Bool
  | .list _ => false
  | .dict _ => false
  | _ => true

/-- Native booleans. -/
def isBoolV : Value → Bool
  | .bool _ => true
  | _ => false

/-- Infinite numeric values. -/
def isInfiniteV : Value → Bool
  | .float .inf => true
  | .float .ninf => true
  | .decimal .inf => true
  | .decimal .ninf => true
  | _ => false

/-- The space/hyphen stripping of `_normalize_zip`. -/
def zipSanitize (s : String) : List Char :=
  s.data.filter (fun c => c ≠ ' ' ∧ c ≠ '-')

/-- The word-shaped null tokens (the case-insensitive part of the
claimed null-token set). -/
def nullWordTokens : List String := ["na", "n/a", "null", "none", "unknown"]

/-- A claimed null-token input: `None`, an empty or whitespace-only
string, or any casing variant of a word token. -/
def nullTokenInput (v : Value) : Prop :=
  v = Value.none ∨
    ∃ s, v = Value.str s ∧
      (s.data.all pyIsSpace = true ∨ nullWordTokens.contains (pyLower s) = true)

/-- Strings identical up to ASCII casing and surrounding/internal
whitespace, agreeing on exact membership in the null-token set (the
agreement clause is forced by the `"na"`/`"NA"` counterexample). -/
def caseWsEquiv (s1 s2 : String) : Prop :=
  pyLower (collapseWs (pyStrip s1)) = pyLower (collapseWs (pyStrip s2)) ∧
    nullTokenStrings.contains s1 = nullTokenStrings.contains s2

/-- Field values identical up to casing/whitespace: equal outright, or
both strings related by `caseWsEquiv`. -/
def vEquiv (v1 v2 : Value) : Prop :=
  v1 = v2 ∨ ∃ s1 s2, v1 = Value.str s1 ∧ v2 = Value.str s2 ∧ caseWsEquiv s1 s2

/-- The boolean-branch decision on an already-normalized text. -/
def boolOfText (text : String) : Option Bool :=
  if booleanTrue.contains (pyLower text) then some true
  else if booleanFalse.contains (pyLower text) then some false
  else Option.none

/-- The decimal-branch decision on an already-normalized text. -/
def decOfText (text : String) : Option PyDecimal :=
  match numberWords.lookup (pyLower text) with
  | some w => some (.fin (Int.ofNat w) 0)
  | Option.none =>
    let candidate := extractNumberFromString (pyLower text)
    if candidate = "" then Option.none
    else match parseDecimal candidate with
      | some me => some (.fin me.1 me.2)
      | Option.none => Option.none

/-- The lead-config transformer of the C3 counterexample: the external
field configuration maps raw column `Source` of table `leads`. -/
def tC3 : Transformer := mkTransformer (some [("leads", Value.str "Source")])

/-- The raw batch of the C3 counterexample: one record whose only lead
field carries the null token `"na"`. -/
def recC3 : RawDict := [(Value.str "Source", Value.str "na")]

/-- The contribution computed by `perRecord` for the C3 witness input
(an empty record with no projected lead fields). -/
def c3OutW : PerOut :=
  match perRecord (mkTransformer Option.none) 2026 [] "K" with
  | .ok o => o
  | .error _ => ⟨[], Option.none, Option.none, [], [], []⟩

/-- The contribution computed by `perRecord` for the C10 witness
input. -/
def c10OutW : PerOut :=
  match perRecord tC3 2026 recC3 "K" with
  | .ok o => o
  | .error _ => ⟨[], Option.none, Option.none, [], [], []⟩

/-- First record of the C4 witness: extra whitespace and casing. -/
def r1C4 : RawDict :=
  [(Value.str "Street_Address", Value.str " 123  MAIN st "),
   (Value.str "City", Value.str "AUSTIN"),
   (Value.str "State", Value.str "tx"),
   (Value.str "Other_Field", Value.int 7)]

/-- Second record of the C4 witness: same address content, different
casing/whitespace and different other fields. -/
def r2C4 : RawDict :=
  [(Value.str "Street_Address", Value.str "123 Main St"),
   (Value.str "City", Value.str "Austin"),
   (Value.str "State", Value.str "TX"),
   (Value.str "Price", Value.str "999")]

/-- The no-configuration transformer of the C1 witness. -/
def tC1W : Transformer := mkTransformer Option.none

/-- The bundle produced for a two-record batch in which the second
record duplicates the first record's derived key. -/
def bC1W : NormalizedBundle :=
  match transform tC1W 2026 [[(Value.str "City", Value.str "Austin")],
      [(Value.str "City", Value.str " AUSTIN ")]] with
  | .ok b => b
  | .error _ => emptyBundle

/-- The adversarial configuration of the C1 counterexample: the
property table projects a raw column whose snake-cased target is
`property_key` itself. -/
def tC1X : Transformer := mkTransformer (some [("property", Value.str "Property_Key")])

set_option maxHeartbeats 2000000
set_option maxRecDepth 100000

/-! ### Helper lemmas -/

theorem normalize_string_str (s : String) :
    normalize_string (.str s) =
      .ok (if nullTokenStrings.contains s then Option.none
           else if pyStrip s = "" then Option.none
           else some (collapseWs (pyStrip s))) := by
  unfold normalize_string nullTokenCheck
  by_cases hc : s ∈ nullTokenStrings <;>
    simp only [hc, Bind.bind, Except.bind, Pure.pure, Except.pure] <;>
    simp [hc] <;> split <;> simp_all

theorem normalize_string_scalar (v : Value) (hh : hashableV v = true)
    (hs : ∀ s, v ≠ .str s) (hb : ∀ bs, v ≠ .bytes bs) (hn : v ≠ .none) :
    normalize_string v = .ok (some (pyStr v)) := by
  cases v <;> simp_all [hashableV] <;>
    simp [normalize_string, nullTokenCheck, Bind.bind, Except.bind, Pure.pure, Except.pure]

theorem normalize_string_bytes (bs : List Nat) :
    normalize_string (.bytes bs) =
      .ok (if pyStrip (utf8DecodeIgnore bs) = "" then Option.none
           else some (collapseWs (pyStrip (utf8DecodeIgnore bs)))) := by
  simp only [normalize_string, nullTokenCheck, Bind.bind, Except.bind, Pure.pure, Except.pure]
  split <;> simp_all
  split <;> rfl

theorem nstr_ok (v : Value) (hh : hashableV v = true) :
    ∃ o, normalize_string v = .ok o := by
  cases v <;> simp_all [hashableV]
  case str s => exact ⟨_, normalize_string_str s⟩
  case bytes bs => exact ⟨_, normalize_string_bytes bs⟩
  all_goals
    simp [normalize_string, nullTokenCheck, Bind.bind, Except.bind, Pure.pure, Except.pure]

theorem normalize_bool_str (s : String) :
    normalize_bool (.str s) = .ok (
      if nullTokenStrings.contains s then Option.none
      else if pyStrip s = "" then Option.none
      else boolOfText (collapseWs (pyStrip s))) := by
  by_cases hc : s ∈ nullTokenStrings
  · simp [normalize_bool, nullTokenCheck, Bind.bind, Except.bind, Pure.pure, Except.pure, hc]
  · simp only [normalize_bool, nullTokenCheck, Bind.bind, Except.bind, Pure.pure,
      Except.pure, hc, normalize_string_str, if_false, Bool.false_eq_true]
    by_cases hstrip : pyStrip s = ""
    · simp [hstrip]
    · simp only [hstrip, if_false, boolOfText]
      by_cases ht : pyLower (collapseWs (pyStrip s)) ∈ booleanTrue
      · simp [hc, hstrip, ht]
      · by_cases hf : pyLower (collapseWs (pyStrip s)) ∈ booleanFalse <;>
          simp [hc, hstrip, ht, hf]

theorem normalize_bool_bytes (bs : List Nat) :
    normalize_bool (.bytes bs) = .ok (
      if pyStrip (utf8DecodeIgnore bs) = "" then Option.none
      else boolOfText (collapseWs (pyStrip (utf8DecodeIgnore bs)))) := by
  simp only [normalize_bool, nullTokenCheck, Bind.bind, Except.bind, Pure.pure,
    Except.pure, normalize_string_bytes]
  by_cases hstrip : pyStrip (utf8DecodeIgnore bs) = ""
  · simp [hstrip]
  · simp only [hstrip, if_false, boolOfText]
    by_cases ht : pyLower (collapseWs (pyStrip (utf8DecodeIgnore bs))) ∈ booleanTrue
    · simp [ht]
    · by_cases hf : pyLower (collapseWs (pyStrip (utf8DecodeIgnore bs))) ∈ booleanFalse <;>
        simp [ht, hf]

theorem normalize_decimal_str (s : String) :
    normalize_decimal (.str s) = .ok (
      if nullTokenStrings.contains s then Option.none
      else if pyStrip s = "" then Option.none
      else decOfText (collapseWs (pyStrip s))) := by
  by_cases hc : s ∈ nullTokenStrings
  · simp [normalize_decimal, nullTokenCheck, Bind.bind, Except.bind, Pure.pure, Except.pure, hc]
  · simp only [normalize_decimal, nullTokenCheck, Bind.bind, Except.bind, Pure.pure,
      Except.pure, hc, normalize_string_str, if_false, Bool.false_eq_true]
    by_cases hstrip : pyStrip s = ""
    · simp [hstrip]
    · simp only [hstrip, if_false, decOfText]
      cases hl : numberWords.lookup (pyLower (collapseWs (pyStrip s))) with
      | some w => simp [hc, hstrip, hl]
      | none =>
        by_cases hcand : extractNumberFromString (pyLower (collapseWs (pyStrip s))) = ""
        · simp [hc, hstrip, hl, hcand]
        · cases hp : parseDecimal (extractNumberFromString (pyLower (collapseWs (pyStrip s)))) <;>
            simp [hc, hstrip, hl, hcand, hp]

theorem normalize_decimal_bytes (bs : List Nat) :
    normalize_decimal (.bytes bs) = .ok (
      if pyStrip (utf8DecodeIgnore bs) = "" then Option.none
      else decOfText (collapseWs (pyStrip (utf8DecodeIgnore bs)))) := by
  simp only [normalize_decimal, nullTokenCheck, Bind.bind, Except.bind, Pure.pure,
    Except.pure, normalize_string_bytes]
  by_cases hstrip : pyStrip (utf8DecodeIgnore bs) = ""
  · simp [hstrip]
  · simp only [hstrip, if_false, decOfText]
    cases hl : numberWords.lookup (pyLower (collapseWs (pyStrip (utf8DecodeIgnore bs)))) with
    | some w => simp [hstrip, hl]
    | none =>
      by_cases hcand : extractNumberFromString (pyLower (collapseWs (pyStrip (utf8DecodeIgnore bs)))) = ""
      · simp [hstrip, hl, hcand]
      · cases hp : parseDecimal (extractNumberFromString (pyLower (collapseWs (pyStrip (utf8DecodeIgnore bs))))) <;>
          simp [hstrip, hl, hcand, hp]

theorem decOfText_shape (text : String) :
    decOfText text = Option.none ∨ ∃ m e, decOfText text = some (.fin m e) := by
  unfold decOfText
  cases hl : numberWords.lookup (pyLower text) with
  | some w => exact Or.inr ⟨_, _, rfl⟩
  | none =>
    by_cases hcand : extractNumberFromString (pyLower text) = ""
    · simp [hcand]
    · cases hp : parseDecimal (extractNumberFromString (pyLower text)) with
      | some me => exact Or.inr ⟨me.1, me.2, by simp [hcand, hp]⟩
      | none => simp [hcand, hp]

theorem nint_rw (v : Value) (o : Option PyDecimal) (h : normalize_decimal v = .ok o) :
    normalize_int v =
      (match o with
       | Option.none => .ok Option.none
       | some .nan => .ok Option.none
       | some .inf => .error .overflowError
       | some .ninf => .error .overflowError
       | some (.fin m e) => .ok (some (roundHalfUp m e))) := by
  simp only [normalize_int, h, Bind.bind, Except.bind, Pure.pure, Except.pure]
  cases o with
  | none => rfl
  | some d => cases d <;> rfl

theorem nfloat_rw (v : Value) (o : Option PyDecimal) (h : normalize_decimal v = .ok o) :
    normalize_float v =
      (match o with
       | Option.none => .ok Option.none
       | some .nan => .ok (some .nan)
       | some .inf => .ok (some .inf)
       | some .ninf => .ok (some .ninf)
       | some (.fin m e) => .ok (some (.finite m e))) := by
  simp only [normalize_float, h, Bind.bind, Except.bind, Pure.pure, Except.pure]
  cases o with
  | none => rfl
  | some d => cases d <;> rfl

theorem ndec_err_rw {v : Value} {e : PyError} (h : normalize_decimal v = .error e) :
    normalize_int v = .error e ∧ normalize_float v = .error e := by
  constructor <;>
    simp only [normalize_int, normalize_float, h, Bind.bind, Except.bind]

/-- Success of `normalize_string` on every hashable value. -/
theorem nstr_ok_eq (v : Value) : exceptOk (normalize_string v) = hashableV v := by
  cases v <;> try rfl
  case str s => rw [normalize_string_str]; rfl
  case bytes bs => rw [normalize_string_bytes]; rfl

/-- Success of `normalize_bool` on every hashable value. -/
theorem nbool_ok_eq (v : Value) : exceptOk (normalize_bool v) = hashableV v := by
  cases v <;> try rfl
  case str s => rw [normalize_bool_str]; rfl
  case bytes bs => rw [normalize_bool_bytes]; rfl
  case float f => cases f <;> rfl

/-- Success of `normalize_decimal` exactly on hashable non-bool values. -/
theorem ndec_ok_eq (v : Value) :
    exceptOk (normalize_decimal v) = (hashableV v && !isBoolV v) := by
  cases v <;> try rfl
  case str s => rw [normalize_decimal_str]; rfl
  case bytes bs => rw [normalize_decimal_bytes]; rfl
  case float f => cases f <;> rfl

/-- The exact result shapes `normalize_decimal` can return on a
hashable non-bool value. -/
theorem ndec_result_shape (v : Value) (hh : hashableV v = true) (hb : isBoolV v = false) :
    (normalize_decimal v = .ok Option.none ∧ isInfiniteV v = false) ∨
    (normalize_decimal v = .ok (some .nan) ∧ isInfiniteV v = false) ∨
    (normalize_decimal v = .ok (some .inf) ∧ isInfiniteV v = true) ∨
    (normalize_decimal v = .ok (some .ninf) ∧ isInfiniteV v = true) ∨
    ∃ m e, normalize_decimal v = .ok (some (.fin m e)) ∧ isInfiniteV v = false := by
  cases v <;> simp_all [hashableV, isBoolV]
  case none => exact Or.inl ⟨rfl, rfl⟩
  case int n => exact Or.inr (Or.inr (Or.inr (Or.inr ⟨⟨n, 0, rfl⟩, rfl⟩)))
  case float f =>
    cases f <;> simp [normalize_decimal, nullTokenCheck, Bind.bind, Except.bind,
      Pure.pure, Except.pure, isInfiniteV]
  case str s =>
    rw [normalize_decimal_str]
    by_cases hc : s ∈ nullTokenStrings
    · simp [hc, isInfiniteV]
    · by_cases hstrip : pyStrip s = ""
      · simp [hc, hstrip, isInfiniteV]
      · rcases decOfText_shape (collapseWs (pyStrip s)) with h | ⟨m, e, h⟩ <;>
          simp [hc, hstrip, h, isInfiniteV]
  case bytes bs =>
    rw [normalize_decimal_bytes]
    by_cases hstrip : pyStrip (utf8DecodeIgnore bs) = ""
    · simp [hstrip, isInfiniteV]
    · rcases decOfText_shape (collapseWs (pyStrip (utf8DecodeIgnore bs))) with h | ⟨m, e, h⟩ <;>
        simp [hstrip, h, isInfiniteV]
  case decimal d =>
    cases d <;> simp [normalize_decimal, nullTokenCheck, Bind.bind, Except.bind,
      Pure.pure, Except.pure, isInfiniteV]

/-- Error shapes: on unhashable or bool input `normalize_decimal`
raises. -/
theorem ndec_err_shape (v : Value) (h : (hashableV v && !isBoolV v) = false) :
    ∃ e, normalize_decimal v = .error e := by
  cases v <;> simp_all [hashableV, isBoolV] <;> exact ⟨_, rfl⟩

/-! ### Claim C5 -/

/-- C5 (corrected).  Success characterization of the five value
normalizers.  The string and boolean normalizers succeed exactly on
hashable input: a list or mapping input raises `TypeError` inside the
`value in _NULL_TOKENS` membership test, contradicting the claim that
inputs of any shape normalize to a value or null.  The decimal, float
and integer normalizers additionally raise `InvalidOperation` on
native booleans (`Decimal(str(True))` is unparsable), and the integer
normalizer raises `OverflowError` on infinite input
(`int(Decimal('Infinity'))`).  On all other inputs the normalizers
return a canonical value or null and never raise. -/
theorem c5_success_characterization (v : Value) :
    exceptOk (normalize_string v) = hashableV v ∧
    exceptOk (normalize_bool v) = hashableV v ∧
    exceptOk (normalize_decimal v) = (hashableV v && !isBoolV v) ∧
    exceptOk (normalize_float v) = (hashableV v && !isBoolV v) ∧
    exceptOk (normalize_int v) = (hashableV v && !isBoolV v && !isInfiniteV v) := by
  refine ⟨nstr_ok_eq v, nbool_ok_eq v, ndec_ok_eq v, ?_, ?_⟩
  · by_cases hok : (hashableV v && !isBoolV v) = true
    · have hh : hashableV v = true := by
        cases hx : isBoolV v <;> simp_all
      have hb : isBoolV v = false := by
        cases hx : isBoolV v <;> simp_all
      rcases ndec_result_shape v hh hb with ⟨h, _⟩ | ⟨h, _⟩ | ⟨h, _⟩ | ⟨h, _⟩ | ⟨m, e, h, _⟩ <;>
        rw [nfloat_rw v _ h] <;> simp [exceptOk, hok]
    · obtain ⟨e, he⟩ := ndec_err_shape v (by simpa using hok)
      rw [(ndec_err_rw he).2]
      rw [(Bool.not_eq_true _).mp hok]
      rfl
  · by_cases hok : (hashableV v && !isBoolV v) = true
    · have hh : hashableV v = true := by
        cases hx : isBoolV v <;> simp_all
      have hb : isBoolV v = false := by
        cases hx : isBoolV v <;> simp_all
      rcases ndec_result_shape v hh hb with ⟨h, hi⟩ | ⟨h, hi⟩ | ⟨h, hi⟩ | ⟨h, hi⟩ |
          ⟨m, e, h, hi⟩ <;>
        rw [nint_rw v _ h] <;> simp [exceptOk, hok, hi]
    · obtain ⟨e, he⟩ := ndec_err_shape v (by simpa using hok)
      rw [(ndec_err_rw he).1]
      rw [(Bool.not_eq_true _).mp hok]
      rfl

/-- C5 counterexample: the claim quantifies over inputs of every
shape, including nested mappings and lists, but the string normalizer
raises `TypeError` on them (Python cannot hash a list or dict during
the `value in _NULL_TOKENS` test), and the decimal normalizer raises
`InvalidOperation` on a native boolean. -/
theorem c5_counterexample :
    normalize_string (Value.list []) = .error .typeError ∧
    normalize_string (Value.dict []) = .error .typeError ∧
    normalize_bool (Value.list [Value.int 1]) = .error .typeError ∧
    normalize_decimal (Value.bool true) = .error .invalidOperation ∧
    normalize_int (Value.float .inf) = .error .overflowError :=
  ⟨rfl, rfl, rfl, rfl, rfl⟩

/-! ### Claim C6 -/

/-- C6 (corrected).  The year validator nulls the normalized year only
when it is non-zero and strictly below 1700, or non-zero and above the
current year; in particular 1600 and currentYear+5 become null and
1955 survives, but the boundary value 1700 and the falsy value 0 pass
through unchanged (Python `if year and year < 1700`). -/
theorem c6_year_bound (currentYear y : Int) (v : Value)
    (h : normalize_int v = .ok (some y)) :
    pNormalizeYear currentYear v =
      .ok (if y ≠ 0 ∧ (y < 1700 ∨ y > currentYear) then Option.none else some y) := by
  simp only [pNormalizeYear, h, Bind.bind, Except.bind, Pure.pure, Except.pure]
  by_cases h0 : y = 0
  · simp [h0]
  · by_cases hlo : y < 1700
    · simp [h0, hlo]
    · by_cases hhi : y > currentYear <;> simp [h0, hlo, hhi]

/-- C6 witness: 1955 survives, 1600 and 2026+5 are nulled (at
`currentYear = 2026`). -/
theorem c6_year_bound_witness :
    normalize_int (Value.int 1955) = .ok (some 1955) ∧
    pNormalizeYear 2026 (Value.int 1955) = .ok (some 1955) ∧
    pNormalizeYear 2026 (Value.int 1600) = .ok Option.none ∧
    pNormalizeYear 2026 (Value.int 2031) = .ok Option.none := by
  refine ⟨rfl, ?_, ?_, ?_⟩
  · have h := c6_year_bound 2026 1955 (Value.int 1955) rfl
    simpa using h
  · have h := c6_year_bound 2026 1600 (Value.int 1600) rfl
    simpa using h
  · have h := c6_year_bound 2026 2031 (Value.int 2031) rfl
    simpa using h

/-- C6 counterexample: the claim says a normalized year ≤ 1700 becomes
null, but 1700 itself (and 0, which is falsy) pass through: the code
tests `year < 1700` strictly, guarded by truthiness. -/
theorem c6_counterexample :
    (1700 : Int) ≤ 1700 ∧
    pNormalizeYear 2026 (Value.int 1700) = .ok (some 1700) ∧
    pNormalizeYear 2026 (Value.int 0) = .ok (some 0) ∧
    (constructRecord 2026 propertySchema
        [("property_key", Value.str "K"), ("year_built", Value.int 1700)]).map
      (fun r => r.lookup "year_built") = .ok (some (NormValue.int 1700)) :=
  ⟨by norm_num, rfl, rfl, rfl⟩

/-! ### Claim C7 -/

/-- C7 (corrected).  The zip wrap-validator strips spaces and hyphens
and zero-pads to five digits only when the stripped form is purely
numeric; when it is not, the field keeps the *unstripped* normalized
string (the claim said the stripped value is always stored).  The
concrete conjuncts run the full `PropertyRecord` construction:
`"501"` is padded to `"00501"`; `"90210-1234"` sanitizes to nine
digits with no truncation. -/
theorem c7_zip_normalization :
    (∀ s : String, pNormalizeZip (some s) =
      (if pyIsDigitStr (zipSanitize s) then some (String.mk (zfill5 (zipSanitize s)))
       else some s)) ∧
    pNormalizeZip Option.none = Option.none ∧
    (constructRecord 2026 propertySchema
        [("property_key", Value.str "K"), ("zip_code", Value.str "501")]).map
      (fun r => r.lookup "zip_code") = .ok (some (NormValue.str "00501")) ∧
    (constructRecord 2026 propertySchema
        [("property_key", Value.str "K"), ("zip_code", Value.str "90210-1234")]).map
      (fun r => r.lookup "zip_code") = .ok (some (NormValue.str "902101234")) :=
  ⟨fun _ => rfl, rfl, rfl, rfl⟩

/-- C7 counterexample: the claim says the stored zip is always the
value stripped of spaces and hyphens, but for a non-numeric zip the
code returns the unstripped string: raw zip `"AB-12"` is stored as
`"AB-12"`, not `"AB12"`. -/
theorem c7_counterexample :
    (constructRecord 2026 propertySchema
        [("property_key", Value.str "K"), ("zip_code", Value.str "AB-12")]).map
      (fun r => r.lookup "zip_code") = .ok (some (NormValue.str "AB-12")) ∧
    zipSanitize "AB-12" = "AB12".data ∧
    ("AB-12" : String) ≠ "AB12" :=
  ⟨rfl, by decide, by decide⟩

/-! ### Claim C8 -/

/-- C8 (corrected).  The flattener pairs the elements of a scenario
list with ranks 1..n in list order (and wraps a single mapping as rank
1, and an absent value as no scenarios); but an element that is not a
mapping is passed to `dict(...)`, which raises for scalar elements
instead of coercing them, aborting the whole transform — the claim
said unexpected shapes do not abort the record. -/
theorem c8_scenario_ranks :
    (∀ ds : List RawDict, iter_scenarios (Value.list (ds.map Value.dict)) =
      .ok (ds.enum.map (fun p => (p.1 + 1, p.2)))) ∧
    (∀ kvs : RawDict, iter_scenarios (Value.dict kvs) = .ok [(1, kvs)]) ∧
    iter_scenarios Value.none = .ok [] := by
  have go : ∀ (ds : List RawDict) (i : Nat), iterScenariosGo i (ds.map Value.dict) =
      .ok ((ds.enumFrom i).map (fun p => (p.1 + 1, p.2))) := by
    intro ds
    induction ds with
    | nil => intro i; rfl
    | cons d rest ih =>
      intro i
      simp only [List.map_cons, iterScenariosGo, dictCoerce, Bind.bind, Except.bind,
        Pure.pure, Except.pure, ih (i + 1), List.enumFrom, List.map_cons]
  refine ⟨fun ds => ?_, fun kvs => rfl, rfl⟩
  unfold iter_scenarios ensure_sequence
  rw [go ds 0]
  rfl

/-- C8 counterexample: a scalar element in a scenario list is not
coerced to a mapping — `dict(5)` raises `TypeError` (and a string
element raises `ValueError`), aborting the transform. -/
theorem c8_counterexample :
    iter_scenarios (Value.list [Value.int 5]) = .error .typeError ∧
    iter_scenarios (Value.str "abc") = .error .valueError ∧
    transform (mkTransformer Option.none) 2026
        [[(Value.str "Street_Address", Value.str "1 A St"),
          (Value.str "Valuation", Value.list [Value.int 5])]] = .error .typeError :=
  ⟨rfl, rfl, rfl⟩

/-! ### Claim C9 -/

/-- C9 (confirmed).  The streaming interface yields exactly the
property collection of the bundle produced by `transform` on the same
batch, in the same order. -/
theorem c9_iter_matches_transform (t : Transformer) (cy : Int) (data : List RawDict)
    (b : NormalizedBundle) (h : transform t cy data = .ok b) :
    iter_property_records t cy data = .ok b.properties := by
  simp only [iter_property_records, h, Bind.bind, Except.bind, Pure.pure, Except.pure]

/-- C9 witness at a concrete batch. -/
theorem c9_iter_matches_transform_witness :
    transform (mkTransformer Option.none) 2026 [] = .ok emptyBundle ∧
    iter_property_records (mkTransformer Option.none) 2026 [] = .ok emptyBundle.properties :=
  ⟨rfl, c9_iter_matches_transform (mkTransformer Option.none) 2026 [] emptyBundle rfl⟩

/-- Decomposition of one record's contribution: what `perRecord`
constructs and when the optional dependents are present. -/
theorem perRecord_spec (t : Transformer) (cy : Int) (record : RawDict) (k : String)
    (out : PerOut) (h : perRecord t cy record k = .ok out) :
    constructRecord cy propertySchema
        (mkPayload k (projectFields record t.propertyFields)) = .ok out.prop ∧
    out.lead.isSome =
      hasMeaningfulPayload (mkPayload k (projectFields record t.leadFields))
        ["property_key"] ∧
    out.tax.isSome =
      hasMeaningfulPayload (mkPayload k (projectFields record t.taxFields))
        ["property_key"] ∧
    (∃ prs, iter_scenarios (rawGet record "Valuation") = .ok prs ∧
       scenarioOuts cy valuationSchema t.valuationFields k prs = .ok out.vals) ∧
    (∃ prs, iter_scenarios (rawGet record "Rehab") = .ok prs ∧
       scenarioOuts cy rehabSchema t.rehabFields k prs = .ok out.rehabs) ∧
    (∃ prs, iter_scenarios (rawGet record "HOA") = .ok prs ∧
       scenarioOuts cy hoaSchema t.hoaFields k prs = .ok out.hoas) := by
  unfold perRecord at h
  simp only [Bind.bind, Except.bind, Pure.pure, Except.pure] at h
  cases h1 : constructRecord cy propertySchema
      (mkPayload k (projectFields record t.propertyFields)) with
  | error e => simp only [h1] at h; simp at h
  | ok pm =>
  simp only [h1] at h
  by_cases hm1 : hasMeaningfulPayload (mkPayload k (projectFields record t.leadFields))
      ["property_key"] = true
  all_goals simp only [hm1, if_true, if_false, Bool.false_eq_true, reduceIte] at h
  case pos =>
    cases h2 : constructRecord cy leadSchema
        (mkPayload k (projectFields record t.leadFields)) with
    | error e => simp only [h2] at h; simp at h
    | ok ld =>
    simp only [h2] at h
    by_cases hm2 : hasMeaningfulPayload (mkPayload k (projectFields record t.taxFields))
        ["property_key"] = true
    all_goals simp only [hm2, if_true, if_false, Bool.false_eq_true, reduceIte] at h
    case pos =>
      cases h3 : constructRecord cy taxSchema
          (mkPayload k (projectFields record t.taxFields)) with
      | error e => simp only [h3] at h; simp at h
      | ok tx =>
      simp only [h3] at h
      cases h4 : iter_scenarios (rawGet record "Valuation") with
      | error e => simp only [h4] at h; simp at h
      | ok vprs =>
      simp only [h4] at h
      cases h5 : scenarioOuts cy valuationSchema t.valuationFields k vprs with
      | error e => simp only [h5] at h; simp at h
      | ok vs =>
      simp only [h5] at h
      cases h6 : iter_scenarios (rawGet record "Rehab") with
      | error e => simp only [h6] at h; simp at h
      | ok rprs =>
      simp only [h6] at h
      cases h7 : scenarioOuts cy rehabSchema t.rehabFields k rprs with
      | error e => simp only [h7] at h; simp at h
      | ok rs =>
      simp only [h7] at h
      cases h8 : iter_scenarios (rawGet record "HOA") with
      | error e => simp only [h8] at h; simp at h
      | ok hprs =>
      simp only [h8] at h
      cases h9 : scenarioOuts cy hoaSchema t.hoaFields k hprs with
      | error e => simp only [h9] at h; simp at h
      | ok hs =>
      simp only [h9] at h
      simp only [Except.ok.injEq] at h
      subst h
      exact ⟨by simpa using h1, by simp [hm1], by simp [hm2],
        ⟨vprs, rfl, by simpa using h5⟩, ⟨rprs, rfl, by simpa using h7⟩,
        ⟨hprs, rfl, by simpa using h9⟩⟩
    case neg =>
      cases h4 : iter_scenarios (rawGet record "Valuation") with
      | error e => simp only [h4] at h; simp at h
      | ok vprs =>
      simp only [h4] at h
      cases h5 : scenarioOuts cy valuationSchema t.valuationFields k vprs with
      | error e => simp only [h5] at h; simp at h
      | ok vs =>
      simp only [h5] at h
      cases h6 : iter_scenarios (rawGet record "Rehab") with
      | error e => simp only [h6] at h; simp at h
      | ok rprs =>
      simp only [h6] at h
      cases h7 : scenarioOuts cy rehabSchema t.rehabFields k rprs with
      | error e => simp only [h7] at h; simp at h
      | ok rs =>
      simp only [h7] at h
      cases h8 : iter_scenarios (rawGet record "HOA") with
      | error e => simp only [h8] at h; simp at h
      | ok hprs =>
      simp only [h8] at h
      cases h9 : scenarioOuts cy hoaSchema t.hoaFields k hprs with
      | error e => simp only [h9] at h; simp at h
      | ok hs =>
      simp only [h9] at h
      simp only [Except.ok.injEq] at h
      subst h
      exact ⟨by simpa using h1, by simp [hm1], by simp [hm2],
        ⟨vprs, rfl, by simpa using h5⟩, ⟨rprs, rfl, by simpa using h7⟩,
        ⟨hprs, rfl, by simpa using h9⟩⟩
  case neg =>
    by_cases hm2 : hasMeaningfulPayload (mkPayload k (projectFields record t.taxFields))
        ["property_key"] = true
    all_goals simp only [hm2, if_true, if_false, Bool.false_eq_true, reduceIte] at h
    case pos =>
      cases h3 : constructRecord cy taxSchema
          (mkPayload k (projectFields record t.taxFields)) with
      | error e => simp only [h3] at h; simp at h
      | ok tx =>
      simp only [h3] at h
      cases h4 : iter_scenarios (rawGet record "Valuation") with
      | error e => simp only [h4] at h; simp at h
      | ok vprs =>
      simp only [h4] at h
      cases h5 : scenarioOuts cy valuationSchema t.valuationFields k vprs with
      | error e => simp only [h5] at h; simp at h
      | ok vs =>
      simp only [h5] at h
      cases h6 : iter_scenarios (rawGet record "Rehab") with
      | error e => simp only [h6] at h; simp at h
      | ok rprs =>
      simp only [h6] at h
      cases h7 : scenarioOuts cy rehabSchema t.rehabFields k rprs with
      | error e => simp only [h7] at h; simp at h
      | ok rs =>
      simp only [h7] at h
      cases h8 : iter_scenarios (rawGet record "HOA") with
      | error e => simp only [h8] at h; simp at h
      | ok hprs =>
      simp only [h8] at h
      cases h9 : scenarioOuts cy hoaSchema t.hoaFields k hprs with
      | error e => simp only [h9] at h; simp at h
      | ok hs =>
      simp only [h9] at h
      simp only [Except.ok.injEq] at h
      subst h
      exact ⟨by simpa using h1, by simp [hm1], by simp [hm2],
        ⟨vprs, rfl, by simpa using h5⟩, ⟨rprs, rfl, by simpa using h7⟩,
        ⟨hprs, rfl, by simpa using h9⟩⟩
    case neg =>
      cases h4 : iter_scenarios (rawGet record "Valuation") with
      | error e => simp only [h4] at h; simp at h
      | ok vprs =>
      simp only [h4] at h
      cases h5 : scenarioOuts cy valuationSchema t.valuationFields k vprs with
      | error e => simp only [h5] at h; simp at h
      | ok vs =>
      simp only [h5] at h
      cases h6 : iter_scenarios (rawGet record "Rehab") with
      | error e => simp only [h6] at h; simp at h
      | ok rprs =>
      simp only [h6] at h
      cases h7 : scenarioOuts cy rehabSchema t.rehabFields k rprs with
      | error e => simp only [h7] at h; simp at h
      | ok rs =>
      simp only [h7] at h
      cases h8 : iter_scenarios (rawGet record "HOA") with
      | error e => simp only [h8] at h; simp at h
      | ok hprs =>
      simp only [h8] at h
      cases h9 : scenarioOuts cy hoaSchema t.hoaFields k hprs with
      | error e => simp only [h9] at h; simp at h
      | ok hs =>
      simp only [h9] at h
      simp only [Except.ok.injEq] at h
      subst h
      exact ⟨by simpa using h1, by simp [hm1], by simp [hm2],
        ⟨vprs, rfl, by simpa using h5⟩, ⟨rprs, rfl, by simpa using h7⟩,
        ⟨hprs, rfl, by simpa using h9⟩⟩

/-- The scenario loop emits exactly the scenarios with a meaningful
payload. -/
theorem scenarioOuts_length (cy : Int) (schema : List FieldSpec)
    (fields : List (String × String)) (k : String) (prs : List (Nat × RawDict))
    (recs : List Record) (h : scenarioOuts cy schema fields k prs = .ok recs) :
    recs.length = (prs.filter (fun pr =>
      hasMeaningfulPayload (mkScenarioPayload k pr.1 (projectFields pr.2 fields))
        ["property_key", "scenario_rank"])).length := by
  induction prs generalizing recs with
  | nil =>
    simp only [scenarioOuts, Except.ok.injEq] at h
    subst h
    rfl
  | cons pr rest ih =>
    obtain ⟨rank, scenario⟩ := pr
    by_cases hm : hasMeaningfulPayload
        (mkScenarioPayload k rank (projectFields scenario fields))
        ["property_key", "scenario_rank"] = true
    · simp only [scenarioOuts, hm, if_true, Bind.bind, Except.bind, Pure.pure,
        Except.pure] at h
      cases hc : constructRecord cy schema
          (mkScenarioPayload k rank (projectFields scenario fields)) with
      | error e => simp only [hc] at h; simp at h
      | ok ent =>
        simp only [hc] at h
        cases ht : scenarioOuts cy schema fields k rest with
        | error e => simp only [ht] at h; simp at h
        | ok tail =>
          simp only [ht, Except.ok.injEq] at h
          subst h
          simp [List.filter, hm, ih tail ht]
    · simp only [scenarioOuts, hm, if_false, Bool.false_eq_true, reduceIte] at h
      simp [List.filter, Bool.of_not_eq_true hm, ih recs h]

/-! ### Claim C3 -/

/-- C3 (corrected).  The emptiness test deciding whether a dependent
entity is emitted runs on the *raw projected payload*, before any
normalization: a Lead/Tax is present exactly when some raw non-key
projected value is neither `None` nor the empty string, and each
scenario entity is emitted exactly when its raw payload passes the same
test — so an emitted dependent's *constructed* fields can still all be
null, and the claim's invariant on constructed entities fails (see the
counterexample).  The Property entity does not go through this test. -/
theorem c3_raw_payload_filtering (t : Transformer) (cy : Int) (record : RawDict)
    (k : String) (out : PerOut) (h : perRecord t cy record k = .ok out) :
    out.lead.isSome =
      hasMeaningfulPayload (mkPayload k (projectFields record t.leadFields))
        ["property_key"] ∧
    out.tax.isSome =
      hasMeaningfulPayload (mkPayload k (projectFields record t.taxFields))
        ["property_key"] ∧
    (iter_scenarios (rawGet record "Valuation")).map (fun prs => (prs.filter (fun pr =>
        hasMeaningfulPayload (mkScenarioPayload k pr.1 (projectFields pr.2 t.valuationFields))
          ["property_key", "scenario_rank"])).length) = .ok out.vals.length ∧
    (iter_scenarios (rawGet record "Rehab")).map (fun prs => (prs.filter (fun pr =>
        hasMeaningfulPayload (mkScenarioPayload k pr.1 (projectFields pr.2 t.rehabFields))
          ["property_key", "scenario_rank"])).length) = .ok out.rehabs.length ∧
    (iter_scenarios (rawGet record "HOA")).map (fun prs => (prs.filter (fun pr =>
        hasMeaningfulPayload (mkScenarioPayload k pr.1 (projectFields pr.2 t.hoaFields))
          ["property_key", "scenario_rank"])).length) = .ok out.hoas.length := by
  obtain ⟨-, hl, ht, ⟨vprs, hv, hvs⟩, ⟨rprs, hr, hrs⟩, ⟨hprs, hh, hhs⟩⟩ :=
    perRecord_spec t cy record k out h
  refine ⟨hl, ht, ?_, ?_, ?_⟩
  · rw [hv]
    simp [Except.map, (scenarioOuts_length _ _ _ _ _ _ hvs).symm]
  · rw [hr]
    simp [Except.map, (scenarioOuts_length _ _ _ _ _ _ hrs).symm]
  · rw [hh]
    simp [Except.map, (scenarioOuts_length _ _ _ _ _ _ hhs).symm]

/-- C3 counterexample: the claim says every emitted dependent has some
non-null constructed field and an all-null payload is never emitted —
but a lead whose only raw value is `"na"` (meaningful pre-normalization,
null post-normalization) is emitted with every non-key field null. -/
theorem c3_counterexample :
    (transform tC3 2026 [recC3]).map
      (fun b => (b.properties.length,
        b.leads.map (fun l => l.filter (fun p => p.1 ≠ "property_key")))) =
      .ok (1,
        [[("reviewed_status", NormValue.none), ("most_recent_status", NormValue.none),
          ("source", NormValue.none), ("occupancy", NormValue.none),
          ("net_yield", NormValue.none), ("irr", NormValue.none),
          ("selling_reason", NormValue.none), ("seller_retained_broker", NormValue.none),
          ("final_reviewer", NormValue.none)]]) := by
  rfl

/-- C3 witness: with an all-absent lead payload the Lead entity is
dropped while the record still yields its Property. -/
theorem c3_raw_payload_filtering_witness :
    perRecord (mkTransformer Option.none) 2026 [] "K" = .ok c3OutW ∧
    c3OutW.lead = Option.none := by
  refine ⟨rfl, ?_⟩
  have h := (c3_raw_payload_filtering (mkTransformer Option.none) 2026 [] "K" c3OutW
    rfl).1
  have h2 : hasMeaningfulPayload
      (mkPayload "K" (projectFields [] (mkTransformer Option.none).leadFields))
      ["property_key"] = false := rfl
  rw [h2] at h
  cases o : c3OutW.lead with
  | none => rfl
  | some l => rw [o] at h; simp at h

/-! ### Claim C10 -/

/-- `meaningfulValue` holds exactly off `None` and the empty string. -/
theorem meaningfulValue_iff (v : Value) :
    meaningfulValue v = true ↔ v ≠ Value.none ∧ v ≠ Value.str "" := by
  cases v <;> simp [meaningfulValue]

/-- C10 (confirmed).  The meaningful-payload check runs on raw
projected values and treats only `None` and `""` as non-meaningful:
boolean `False`, numeric `0`, a whitespace-only string and the null
token `"na"` all count as meaningful (even though the last two
normalize to null in the constructed entity), and a meaningful raw lead
payload forces the Lead entity to be emitted. -/
theorem c10_raw_meaningful_check :
    (∀ (payload : Payload) (skip : List String),
      hasMeaningfulPayload payload skip = true ↔
        ∃ p ∈ payload, p.1 ∉ skip ∧ p.2 ≠ Value.none ∧ p.2 ≠ Value.str "") ∧
    meaningfulValue (Value.bool false) = true ∧
    meaningfulValue (Value.int 0) = true ∧
    meaningfulValue (Value.str " ") = true ∧
    meaningfulValue (Value.str "na") = true ∧
    normalize_string (Value.str "na") = .ok Option.none ∧
    normalize_string (Value.str " ") = .ok Option.none ∧
    (∀ (t : Transformer) (cy : Int) (record : RawDict) (k : String) (out : PerOut),
      perRecord t cy record k = .ok out →
      hasMeaningfulPayload (mkPayload k (projectFields record t.leadFields))
        ["property_key"] = true →
      out.lead.isSome = true) := by
  refine ⟨?_, rfl, rfl, by decide, by decide, rfl, rfl, ?_⟩
  · intro payload skip
    simp only [hasMeaningfulPayload, List.any_eq_true, Bool.and_eq_true,
      Bool.not_eq_true', meaningfulValue_iff]
    constructor <;> rintro ⟨p, hp, hc, hm⟩ <;> exact ⟨p, hp, by simp_all, hm⟩
  · intro t cy record k out h hm
    rw [(perRecord_spec t cy record k out h).2.1, hm]

/-- C10 witness: a lead payload whose only raw value is the null token
`"na"` is meaningful and the Lead is emitted. -/
theorem c10_raw_meaningful_check_witness :
    hasMeaningfulPayload [("source", Value.str "na")] ["property_key"] = true ∧
    (∃ p ∈ [("source", Value.str "na")], p.1 ∉ ["property_key"] ∧
      p.2 ≠ Value.none ∧ p.2 ≠ Value.str "") ∧
    perRecord tC3 2026 recC3 "K" = .ok c10OutW ∧
    c10OutW.lead.isSome = true := by
  refine ⟨rfl, ?_, rfl, ?_⟩
  · exact (c10_raw_meaningful_check.1 [("source", Value.str "na")] ["property_key"]).mp rfl
  · exact c10_raw_meaningful_check.2.2.2.2.2.2.2 tC3 2026 recC3 "K" c10OutW rfl rfl

/-! ### Claim C2: string lemmas -/

theorem dropWhile_all_pos {p : Char → Bool} {l : List Char}
    (h : ∀ c ∈ l, p c = true) : l.dropWhile p = [] := by
  induction l with
  | nil => rfl
  | cons c rest ih =>
    simp only [List.dropWhile, h c (by simp)]
    exact ih (fun x hx => h x (by simp [hx]))

theorem dropWhile_all_neg {p : Char → Bool} {l : List Char}
    (h : ∀ c ∈ l, p c = false) : l.dropWhile p = l := by
  cases l with
  | nil => rfl
  | cons c rest => simp only [List.dropWhile, h c (by simp)]

theorem pyStripL_all_space {l : List Char} (h : ∀ c ∈ l, pyIsSpace c = true) :
    pyStripL l = [] := by
  unfold pyStripL stripLeading
  rw [dropWhile_all_pos h]
  rfl

theorem pyStripL_no_space {l : List Char} (h : ∀ c ∈ l, pyIsSpace c = false) :
    pyStripL l = l := by
  unfold pyStripL stripLeading
  rw [dropWhile_all_neg h, dropWhile_all_neg (fun c hc => h c (by simpa using hc)),
    List.reverse_reverse]

theorem collapseWsAux_no_space {l : List Char} (b : Bool)
    (h : ∀ c ∈ l, pyIsSpace c = false) : collapseWsAux b l = l := by
  induction l generalizing b with
  | nil => rfl
  | cons c rest ih =>
    simp only [collapseWsAux, h c (by simp)]
    simp only [Bool.false_eq_true, reduceIte]
    rw [ih false (fun x hx => h x (by simp [hx]))]

theorem pyStrip_all_space {s : String} (h : ∀ c ∈ s.data, pyIsSpace c = true) :
    pyStrip s = "" := by
  unfold pyStrip
  rw [pyStripL_all_space h]

theorem pyStrip_no_space {s : String} (h : ∀ c ∈ s.data, pyIsSpace c = false) :
    pyStrip s = s := by
  unfold pyStrip
  rw [pyStripL_no_space h]

theorem collapseWs_no_space {s : String} (h : ∀ c ∈ s.data, pyIsSpace c = false) :
    collapseWs s = s := by
  unfold collapseWs
  rw [collapseWsAux_no_space false h]

theorem charToNat_ofNat {n : Nat} (h : n < 55296) : (Char.ofNat n).toNat = n := by
  unfold Char.ofNat
  rw [dif_pos (Or.inl h)]
  simp [Char.ofNatAux, Char.toNat, UInt32.ofNat', UInt32.toNat]

theorem pyIsSpace_false_of_toNat {c : Char} (h : 32 < c.toNat) :
    pyIsSpace c = false := by
  unfold pyIsSpace
  have h1 : c ≠ ' ' := fun he => by subst he; simp at h
  have h2 : c ≠ '\t' := fun he => by subst he; simp at h
  have h3 : c ≠ '\n' := fun he => by subst he; simp at h
  have h4 : c ≠ '\x0d' := fun he => by subst he; simp at h
  have h5 : c ≠ '\x0b' := fun he => by subst he; simp at h
  have h6 : c ≠ '\x0c' := fun he => by subst he; simp at h
  simp [h1, h2, h3, h4, h5, h6]

theorem pyIsSpace_pyCharLower (c : Char) : pyIsSpace (pyCharLower c) = pyIsSpace c := by
  unfold pyCharLower
  by_cases hr : 65 ≤ c.toNat ∧ c.toNat ≤ 90
  · rw [if_pos hr]
    have h1 : (Char.ofNat (c.toNat + 32)).toNat = c.toNat + 32 :=
      charToNat_ofNat (by omega)
    rw [pyIsSpace_false_of_toNat (c := Char.ofNat (c.toNat + 32)) (by rw [h1]; omega),
      pyIsSpace_false_of_toNat (by omega)]
  · rw [if_neg hr]

theorem nonspace_of_lower_eq {w s : String}
    (hw : ∀ c ∈ w.data, pyIsSpace c = false) (hls : pyLower s = w) :
    ∀ c ∈ s.data, pyIsSpace c = false := by
  intro c hc
  have hdata : s.data.map pyCharLower = w.data := congrArg String.data hls
  have hmem : pyCharLower c ∈ w.data := by
    rw [← hdata]
    exact List.mem_map_of_mem _ hc
  rw [← pyIsSpace_pyCharLower]
  exact hw _ hmem

theorem lower_ne_empty {s w : String} (hls : pyLower s = w) (hw : w ≠ "") : s ≠ "" := by
  intro he
  subst he
  exact hw (hls.symm.trans rfl)

/-- Evaluation of the bool/decimal/int/float normalizers on any casing
variant `s` of a word-shaped null token `w`. -/
theorem word_token_case {s w : String} (hls : pyLower s = w)
    (hnsw : ∀ c ∈ w.data, pyIsSpace c = false)
    (hword : numberWords.lookup w = Option.none)
    (hextract : extractNumberFromString w = "")
    (hbt : booleanTrue.contains w = false)
    (hbf : booleanFalse.contains w = false)
    (hwne : w ≠ "") :
    normalize_bool (.str s) = .ok Option.none ∧
    normalize_decimal (.str s) = .ok Option.none ∧
    normalize_int (.str s) = .ok Option.none ∧
    normalize_float (.str s) = .ok Option.none := by
  have hns : ∀ c ∈ s.data, pyIsSpace c = false := nonspace_of_lower_eq hnsw hls
  have hstrip : pyStrip s = s := pyStrip_no_space hns
  have hcoll : collapseWs s = s := collapseWs_no_space hns
  have hsne : s ≠ "" := lower_ne_empty hls hwne
  have hdec : normalize_decimal (.str s) = .ok Option.none := by
    rw [normalize_decimal_str]
    by_cases hc : s ∈ nullTokenStrings
    · simp [hc]
    · simp only [hc, if_false, hstrip, hsne, hcoll, decOfText, hls, hword, hextract,
        reduceIte]
      simp [hsne]
  refine ⟨?_, hdec, ?_, ?_⟩
  · rw [normalize_bool_str]
    by_cases hc : s ∈ nullTokenStrings
    · simp [hc]
    · simp only [hc, if_false, hstrip, hsne, hcoll, boolOfText, hls, reduceIte]
      have hbt2 : ¬ (w ∈ booleanTrue) := by simpa using hbt
      have hbf2 : ¬ (w ∈ booleanFalse) := by simpa using hbf
      simp [hsne, hbt2, hbf2]
  · rw [nint_rw _ _ hdec]
  · rw [nfloat_rw _ _ hdec]

/-- Evaluation of the bool/decimal/int/float normalizers on an
all-whitespace string. -/
theorem space_token_case {s : String} (hsp : ∀ c ∈ s.data, pyIsSpace c = true) :
    normalize_bool (.str s) = .ok Option.none ∧
    normalize_decimal (.str s) = .ok Option.none ∧
    normalize_int (.str s) = .ok Option.none ∧
    normalize_float (.str s) = .ok Option.none := by
  have hstrip : pyStrip s = "" := pyStrip_all_space hsp
  have hdec : normalize_decimal (.str s) = .ok Option.none := by
    rw [normalize_decimal_str]
    by_cases hc : s ∈ nullTokenStrings <;> simp [hc, hstrip]
  refine ⟨?_, hdec, ?_, ?_⟩
  · rw [normalize_bool_str]
    by_cases hc : s ∈ nullTokenStrings <;> simp [hc, hstrip]
  · rw [nint_rw _ _ hdec]
  · rw [nfloat_rw _ _ hdec]

/-! ### Claim C2 -/

/-- C2 (corrected).  Null-token inputs are nulled by the boolean,
decimal, integer and float normalizers for *any* casing variant of the
word tokens (and for null, empty and whitespace-only strings); the
string normalizer, however, nulls only null, empty/whitespace-only
strings and the exact lowercase tokens — uppercase variants such as
`"NA"` pass through it unchanged (see the counterexample), because the
`value in _NULL_TOKENS` membership test is case-sensitive and the
stripped text is returned without any lowercasing. -/
theorem c2_null_token_normalization :
    (∀ v, nullTokenInput v →
       normalize_bool v = .ok Option.none ∧ normalize_decimal v = .ok Option.none ∧
       normalize_int v = .ok Option.none ∧ normalize_float v = .ok Option.none) ∧
    normalize_string Value.none = .ok Option.none ∧
    (∀ s : String, (∀ c ∈ s.data, pyIsSpace c = true) ∨ s ∈ nullTokenStrings →
       normalize_string (.str s) = .ok Option.none) := by
  refine ⟨?_, rfl, ?_⟩
  · rintro v (rfl | ⟨s, rfl, hs⟩)
    · exact ⟨rfl, rfl, rfl, rfl⟩
    · rcases hs with hsp | htok
      · have hsp2 : ∀ c ∈ s.data, pyIsSpace c = true := by
          intro c hc
          exact List.all_eq_true.mp hsp c hc
        exact space_token_case hsp2
      · have : pyLower s = "na" ∨ pyLower s = "n/a" ∨ pyLower s = "null" ∨
            pyLower s = "none" ∨ pyLower s = "unknown" := by
          simpa [nullWordTokens] using htok
        rcases this with hw | hw | hw | hw | hw
        · exact word_token_case hw (by decide) (by decide) (by decide) (by decide)
            (by decide) (by decide)
        · exact word_token_case hw (by decide) (by decide) (by decide) (by decide)
            (by decide) (by decide)
        · exact word_token_case hw (by decide) (by decide) (by decide) (by decide)
            (by decide) (by decide)
        · exact word_token_case hw (by decide) (by decide) (by decide) (by decide)
            (by decide) (by decide)
        · exact word_token_case hw (by decide) (by decide) (by decide) (by decide)
            (by decide) (by decide)
  · intro s hs
    rw [normalize_string_str]
    rcases hs with hsp | htok
    · by_cases hc : s ∈ nullTokenStrings <;> simp [hc, pyStrip_all_space hsp]
    · simp [htok]

/-- C2 witness: the uppercase variant `"NA"` is nulled by the
bool/decimal/int/float normalizers, and the lowercase token `"null"`
and a whitespace-only string are nulled by the string normalizer. -/
theorem c2_null_token_normalization_witness :
    nullTokenInput (Value.str "NA") ∧
    normalize_bool (Value.str "NA") = .ok Option.none ∧
    normalize_decimal (Value.str "NA") = .ok Option.none ∧
    normalize_int (Value.str "NA") = .ok Option.none ∧
    normalize_float (Value.str "NA") = .ok Option.none ∧
    normalize_string (Value.str "null") = .ok Option.none ∧
    normalize_string (Value.str "  ") = .ok Option.none := by
  have hin : nullTokenInput (Value.str "NA") := Or.inr ⟨"NA", rfl, Or.inr (by decide)⟩
  obtain ⟨h1, h2, h3, h4⟩ := c2_null_token_normalization.1 (Value.str "NA") hin
  exact ⟨hin, h1, h2, h3, h4,
    c2_null_token_normalization.2.2 "null" (Or.inr (by decide)),
    c2_null_token_normalization.2.2 "  " (Or.inl (by decide))⟩

/-- C2 counterexample: the claim includes the string normalizer and
casing variants such as `"NA"`, but `normalize_string("NA")` returns
`"NA"`, not null — the `_NULL_TOKENS` membership test is
case-sensitive. -/
theorem c2_counterexample :
    normalize_string (Value.str "NA") = .ok (some "NA") ∧
    normalize_string (Value.str "None") = .ok (some "None") ∧
    normalize_string (Value.str "UNKNOWN") = .ok (some "UNKNOWN") ∧
    pyLower "NA" = "na" := ⟨rfl, rfl, rfl, by decide⟩

/-! ### Claim C4: key-derivation lemmas -/

theorem string_ne_empty_iff (s : String) : s ≠ "" ↔ s.data ≠ [] := by
  cases s
  simp [String.ext_iff]

theorem pyLower_eq_empty {s : String} (h : pyLower s = "") : s = "" := by
  unfold pyLower at h
  have : s.data.map pyCharLower = [] := congrArg String.data h
  cases s
  simp_all

theorem collapseWs_ne_empty {s : String} (h : s ≠ "") : collapseWs s ≠ "" := by
  rw [string_ne_empty_iff] at h ⊢
  unfold collapseWs
  show collapseWsAux false s.data ≠ []
  cases hd : s.data with
  | nil => exact absurd hd h
  | cons c rest =>
    unfold collapseWsAux
    split <;> simp

theorem componentOfV_str (s : String) :
    componentOfV (.str s) =
      .ok (if s ∈ nullTokenStrings then Option.none
           else if pyStrip s = "" then Option.none
           else some (pyLower (collapseWs (pyStrip s)))) := by
  unfold componentOfV
  simp only [normalize_string_str, Bind.bind, Except.bind]
  by_cases hc : s ∈ nullTokenStrings
  · simp [hc, Pure.pure, Except.pure]
  · by_cases hstrip : pyStrip s = ""
    · simp [hc, hstrip, Pure.pure, Except.pure]
    · have hne : collapseWs (pyStrip s) ≠ "" := collapseWs_ne_empty hstrip
      simp [hc, hstrip, hne, Pure.pure, Except.pure]

theorem charToNat_inj {c1 c2 : Char} (h : c1.toNat = c2.toNat) : c1 = c2 := by
  have := congrArg Char.ofNat h
  rwa [Char.ofNat_toNat, Char.ofNat_toNat] at this

theorem pyCharUpper_congr {c1 c2 : Char} (h : pyCharLower c1 = pyCharLower c2) :
    pyCharUpper c1 = pyCharUpper c2 := by
  unfold pyCharLower at h
  by_cases h1 : 65 ≤ c1.toNat ∧ c1.toNat ≤ 90 <;> by_cases h2 : 65 ≤ c2.toNat ∧ c2.toNat ≤ 90
  · rw [if_pos h1, if_pos h2] at h
    have e1 : (Char.ofNat (c1.toNat + 32)).toNat = c1.toNat + 32 := charToNat_ofNat (by omega)
    have e2 : (Char.ofNat (c2.toNat + 32)).toNat = c2.toNat + 32 := charToNat_ofNat (by omega)
    have : c1.toNat = c2.toNat := by
      have := congrArg Char.toNat h
      rw [e1, e2] at this
      omega
    rw [charToNat_inj this]
  · rw [if_pos h1, if_neg h2] at h
    have e1 : (Char.ofNat (c1.toNat + 32)).toNat = c1.toNat + 32 := charToNat_ofNat (by omega)
    have hc2 : c2.toNat = c1.toNat + 32 := by
      have := congrArg Char.toNat h
      rw [e1] at this
      omega
    unfold pyCharUpper
    rw [if_neg (by omega), if_pos (by omega)]
    rw [hc2]
    have : c1.toNat + 32 - 32 = c1.toNat := by omega
    rw [this, Char.ofNat_toNat]
  · rw [if_neg h1, if_pos h2] at h
    have e2 : (Char.ofNat (c2.toNat + 32)).toNat = c2.toNat + 32 := charToNat_ofNat (by omega)
    have hc1 : c1.toNat = c2.toNat + 32 := by
      have := congrArg Char.toNat h.symm
      rw [e2] at this
      omega
    unfold pyCharUpper
    rw [if_pos (by omega), if_neg (by omega)]
    rw [hc1]
    have : c2.toNat + 32 - 32 = c2.toNat := by omega
    rw [this, Char.ofNat_toNat]
  · rw [if_neg h1, if_neg h2] at h
    rw [h]

theorem map_upper_congr {l1 l2 : List Char}
    (h : l1.map pyCharLower = l2.map pyCharLower) :
    l1.map pyCharUpper = l2.map pyCharUpper := by
  induction l1 generalizing l2 with
  | nil => cases l2 <;> simp_all
  | cons c rest ih =>
    cases l2 with
    | nil => simp_all
    | cons c2 rest2 =>
      simp only [List.map_cons, List.cons.injEq] at h ⊢
      exact ⟨pyCharUpper_congr h.1, ih h.2⟩

theorem pyUpper_congr {s1 s2 : String} (h : pyLower s1 = pyLower s2) :
    pyUpper s1 = pyUpper s2 := by
  unfold pyUpper
  unfold pyLower at h
  have := congrArg String.data h
  simp only at this
  rw [map_upper_congr this]

theorem componentOfV_congr {v1 v2 : Value} (h : vEquiv v1 v2) :
    componentOfV v1 = componentOfV v2 := by
  rcases h with rfl | ⟨s1, s2, rfl, rfl, heq, htok⟩
  · rfl
  · rw [componentOfV_str, componentOfV_str]
    by_cases hc1 : s1 ∈ nullTokenStrings
    · have hc2 : s2 ∈ nullTokenStrings := by
        have : nullTokenStrings.contains s2 = true := by
          rw [← htok]; simpa using hc1
        simpa using this
      simp [hc1, hc2]
    · have hc2 : ¬ s2 ∈ nullTokenStrings := by
        intro hin
        have : nullTokenStrings.contains s1 = true := by
          rw [htok]; simpa using hin
        exact hc1 (by simpa using this)
      by_cases hstrip1 : pyStrip s1 = ""
      · have hstrip2 : pyStrip s2 = "" := by
          by_contra hne
          have h2 := heq
          rw [hstrip1] at h2
          have : collapseWs "" = "" := rfl
          rw [this] at h2
          have : pyLower "" = "" := rfl
          rw [this] at h2
          exact collapseWs_ne_empty hne (pyLower_eq_empty h2.symm)
        simp [hc1, hc2, hstrip1, hstrip2]
      · have hstrip2 : pyStrip s2 ≠ "" := by
          intro he
          have h2 := heq
          rw [he] at h2
          have : collapseWs "" = "" := rfl
          rw [this] at h2
          have : pyLower "" = "" := rfl
          rw [this] at h2
          exact collapseWs_ne_empty hstrip1 (pyLower_eq_empty h2)
        simp [hc1, hc2, hstrip1, hstrip2, heq]

theorem stateTagV_str (s : String) :
    stateTagV (.str s) =
      .ok (pyUpper (if s ∈ nullTokenStrings then "XX"
           else if pyStrip s = "" then "XX"
           else collapseWs (pyStrip s))) := by
  unfold stateTagV
  simp only [normalize_string_str, Bind.bind, Except.bind]
  by_cases hc : s ∈ nullTokenStrings
  · simp [hc, Pure.pure, Except.pure]
  · by_cases hstrip : pyStrip s = ""
    · simp [hc, hstrip, Pure.pure, Except.pure]
    · have hne : collapseWs (pyStrip s) ≠ "" := collapseWs_ne_empty hstrip
      simp [hc, hstrip, hne, Pure.pure, Except.pure]

theorem stateTagV_congr {v1 v2 : Value} (h : vEquiv v1 v2) :
    stateTagV v1 = stateTagV v2 := by
  rcases h with rfl | ⟨s1, s2, rfl, rfl, heq, htok⟩
  · rfl
  · rw [stateTagV_str, stateTagV_str]
    by_cases hc1 : s1 ∈ nullTokenStrings
    · have hc2 : s2 ∈ nullTokenStrings := by
        have : nullTokenStrings.contains s2 = true := by
          rw [← htok]; simpa using hc1
        simpa using this
      simp [hc1, hc2]
    · have hc2 : ¬ s2 ∈ nullTokenStrings := by
        intro hin
        have : nullTokenStrings.contains s1 = true := by
          rw [htok]; simpa using hin
        exact hc1 (by simpa using this)
      by_cases hstrip1 : pyStrip s1 = ""
      · have hstrip2 : pyStrip s2 = "" := by
          by_contra hne
          have h2 := heq
          rw [hstrip1] at h2
          exact collapseWs_ne_empty hne (pyLower_eq_empty h2.symm)
        simp [hc1, hc2, hstrip1, hstrip2]
      · have hstrip2 : pyStrip s2 ≠ "" := by
          intro he
          have h2 := heq
          rw [he] at h2
          exact collapseWs_ne_empty hstrip1 (pyLower_eq_empty h2)
        simp only [hc1, hc2, hstrip1, hstrip2, if_false, reduceIte]
        rw [pyUpper_congr heq]

theorem stateTagV_of_component_none {v : Value} (h : componentOfV v = .ok Option.none) :
    stateTagV v = .ok "XX" := by
  unfold componentOfV at h
  unfold stateTagV
  cases hn : normalize_string v with
  | error e => rw [hn] at h; simp [Bind.bind, Except.bind] at h
  | ok o =>
    rw [hn] at h
    simp only [Bind.bind, Except.bind, Pure.pure, Except.pure] at h ⊢
    cases o with
    | none => rfl
    | some s =>
      by_cases hs : s = ""
      · simp only [hs, reduceIte]
        rfl
      · simp [hs] at h

theorem fallback_truthy_congr {t1 t2 a1 a2 : Value} (h : vEquiv t1 t2)
    {u1 : String} (hn : normalize_string t1 = .ok (some u1)) (hne : u1 ≠ "") :
    fallbackOfV t1 a1 = .ok (some u1) ∧
    ∃ u2, fallbackOfV t2 a2 = .ok (some u2) ∧ u2 ≠ "" ∧ pyLower u1 = pyLower u2 := by
  have h1 : ∀ a : Value, fallbackOfV t1 a = .ok (some u1) := by
    intro a
    unfold fallbackOfV
    simp only [hn, Bind.bind, Except.bind, truthyOpt, hne, if_false, reduceIte,
      Pure.pure, Except.pure]
  rcases h with rfl | ⟨s1, s2, rfl, rfl, heq, htok⟩
  · exact ⟨h1 a1, u1, h1 a2, hne, rfl⟩
  · refine ⟨h1 a1, ?_⟩
    rw [normalize_string_str] at hn
    have hc1 : ¬ s1 ∈ nullTokenStrings := by
      intro hin
      simp [hin] at hn
    have hstrip1 : pyStrip s1 ≠ "" := by
      intro he
      simp [hc1, he] at hn
    have hu1 : u1 = collapseWs (pyStrip s1) := by
      simp [hc1, hstrip1] at hn
      exact hn.symm
    have hc2 : ¬ s2 ∈ nullTokenStrings := by
      intro hin
      have : nullTokenStrings.contains s1 = true := by
        rw [htok]; simpa using hin
      exact hc1 (by simpa using this)
    have hstrip2 : pyStrip s2 ≠ "" := by
      intro he
      have h2 := heq
      rw [he] at h2
      exact collapseWs_ne_empty hstrip1 (pyLower_eq_empty h2)
    have hu2ne : collapseWs (pyStrip s2) ≠ "" := collapseWs_ne_empty hstrip2
    refine ⟨collapseWs (pyStrip s2), ?_, hu2ne, ?_⟩
    · unfold fallbackOfV
      have hc2b : nullTokenStrings.contains s2 = false := by simpa using hc2
      simp only [normalize_string_str, hc2b, hstrip2, Bool.false_eq_true, if_false,
        reduceIte, Bind.bind, Except.bind, truthyOpt, hu2ne, Pure.pure, Except.pure]
    · rw [hu1]
      exact heq

/-! ### Claim C4 -/

/-- C4 (corrected).  Key derivation is deterministic and
content-addressed: (a) two records whose four address fields are
pairwise `vEquiv` (identical up to casing/whitespace and agreeing on
exact null-token membership — the agreement clause is forced by the
`"na"`/`"NA"` counterexample) derive the identical key at any input
positions, whatever their other fields; (b) when none of the four
address fields is truthy, the key is derived from the title fallback,
again content-addressed; (c) fully empty records at the first twenty
distinct input positions derive twenty pairwise-distinct keys. -/
theorem c4_key_derivation :
    (∀ (r1 r2 : RawDict) (i1 i2 : Nat),
      (∀ k ∈ addrKeys, vEquiv (rawGet r1 k) (rawGet r2 k)) →
      (∃ k ∈ addrKeys, ∃ s, componentOf r1 k = .ok (some s)) →
      buildPropertyKey r1 i1 = buildPropertyKey r2 i2) ∧
    (∀ (r1 r2 : RawDict) (i1 i2 : Nat),
      (∀ k ∈ addrKeys, componentOf r1 k = .ok Option.none ∧
        componentOf r2 k = .ok Option.none) →
      vEquiv (rawGet r1 "Property_Title") (rawGet r2 "Property_Title") →
      (∃ u, normalize_string (rawGet r1 "Property_Title") = .ok (some u) ∧ u ≠ "") →
      buildPropertyKey r1 i1 = buildPropertyKey r2 i2) ∧
    ((List.range 20).map (fun i =>
        match buildPropertyKey [] (i + 1) with
        | .ok s => s
        | .error _ => "")).Nodup := by
  refine ⟨?_, ?_, ?_⟩
  · intro r1 r2 i1 i2 hEquiv hPresent
    have e1 : componentOf r1 "Street_Address" = componentOf r2 "Street_Address" :=
      componentOfV_congr (hEquiv "Street_Address" (by simp [addrKeys]))
    have e2 : componentOf r1 "City" = componentOf r2 "City" :=
      componentOfV_congr (hEquiv "City" (by simp [addrKeys]))
    have e3 : componentOf r1 "State" = componentOf r2 "State" :=
      componentOfV_congr (hEquiv "State" (by simp [addrKeys]))
    have e4 : componentOf r1 "Zip" = componentOf r2 "Zip" :=
      componentOfV_congr (hEquiv "Zip" (by simp [addrKeys]))
    have est : stateTagV (rawGet r1 "State") = stateTagV (rawGet r2 "State") :=
      stateTagV_congr (hEquiv "State" (by simp [addrKeys]))
    unfold buildPropertyKey
    simp only [e1, e2, e3, e4, est]
    cases g1 : componentOf r2 "Street_Address" with
    | error e => simp [Bind.bind, Except.bind]
    | ok o1 =>
    cases g2 : componentOf r2 "City" with
    | error e => simp [Bind.bind, Except.bind]
    | ok o2 =>
    cases g3 : componentOf r2 "State" with
    | error e => simp [Bind.bind, Except.bind]
    | ok o3 =>
    cases g4 : componentOf r2 "Zip" with
    | error e => simp [Bind.bind, Except.bind]
    | ok o4 =>
    have hne : [o1, o2, o3, o4].filterMap id ≠ [] := by
      obtain ⟨k, hk, s, hcomp⟩ := hPresent
      simp only [addrKeys, List.mem_cons, List.not_mem_nil, or_false] at hk
      have hmem : some s ∈ [o1, o2, o3, o4] := by
        rcases hk with rfl | rfl | rfl | rfl
        · rw [e1, g1] at hcomp
          simp only [Except.ok.injEq] at hcomp
          simp [← hcomp]
        · rw [e2, g2] at hcomp
          simp only [Except.ok.injEq] at hcomp
          simp [← hcomp]
        · rw [e3, g3] at hcomp
          simp only [Except.ok.injEq] at hcomp
          simp [← hcomp]
        · rw [e4, g4] at hcomp
          simp only [Except.ok.injEq] at hcomp
          simp [← hcomp]
      have : s ∈ [o1, o2, o3, o4].filterMap id := by
        rw [List.mem_filterMap]
        exact ⟨some s, hmem, rfl⟩
      exact List.ne_nil_of_mem this
    have hEmpty : ([o1, o2, o3, o4].filterMap id).isEmpty = false := by
      simpa [List.isEmpty_iff] using hne
    simp [Bind.bind, Except.bind, hEmpty, Pure.pure, Except.pure]
  · intro r1 r2 i1 i2 hFalsy hTitle hTruthy
    have f1 := hFalsy "Street_Address" (by simp [addrKeys])
    have f2 := hFalsy "City" (by simp [addrKeys])
    have f3 := hFalsy "State" (by simp [addrKeys])
    have f4 := hFalsy "Zip" (by simp [addrKeys])
    have st1 : stateTagV (rawGet r1 "State") = .ok "XX" :=
      stateTagV_of_component_none f3.1
    have st2 : stateTagV (rawGet r2 "State") = .ok "XX" :=
      stateTagV_of_component_none f3.2
    obtain ⟨u, hu, hune⟩ := hTruthy
    obtain ⟨hf1, u2, hf2, hu2ne, hlow⟩ :=
      @fallback_truthy_congr (rawGet r1 "Property_Title") (rawGet r2 "Property_Title")
        (rawGet r1 "Address") (rawGet r2 "Address") hTitle u hu hune
    unfold buildPropertyKey
    simp only [f1.1, f1.2, f2.1, f2.2, f3.1, f3.2, f4.1, f4.2, st1, st2]
    show Except.bind _ _ = Except.bind _ _
    simp only [Except.bind, List.filterMap, List.isEmpty_nil, if_true, reduceIte]
    show Except.bind (fallbackOf r1) _ = Except.bind (fallbackOf r2) _
    rw [show fallbackOf r1 = .ok (some u) from hf1,
      show fallbackOf r2 = .ok (some u2) from hf2]
    simp only [Except.bind, Pure.pure, Except.pure, hlow]
    simp [Bind.bind, Except.bind]
  · decide

/-- C4 witness: the two equivalent records derive the identical key at
different input positions. -/
theorem c4_key_derivation_witness :
    buildPropertyKey r1C4 1 = buildPropertyKey r2C4 9 := by
  apply c4_key_derivation.1
  · intro k hk
    simp only [addrKeys, List.mem_cons, List.not_mem_nil, or_false] at hk
    rcases hk with rfl | rfl | rfl | rfl
    · exact Or.inr ⟨" 123  MAIN st ", "123 Main St", rfl, rfl, by decide, by decide⟩
    · exact Or.inr ⟨"AUSTIN", "Austin", rfl, rfl, by decide, by decide⟩
    · exact Or.inr ⟨"tx", "TX", rfl, rfl, by decide, by decide⟩
    · exact Or.inl rfl
  · exact ⟨"Street_Address", by simp [addrKeys], "123 main st", rfl⟩

/-- C4 counterexample: `"na"` and `"NA"` are identical up to casing,
yet the derived keys differ, because the lowercase variant is a null
token and is skipped by the component collection while the uppercase
variant is kept — casing/whitespace equivalence alone does not
guarantee equal keys. -/
theorem c4_counterexample :
    pyLower "na" = pyLower "NA" ∧
    (buildPropertyKey [(Value.str "Street_Address", Value.str "na"),
        (Value.str "City", Value.str "Austin")] 1).toOption ≠
      (buildPropertyKey [(Value.str "Street_Address", Value.str "NA"),
        (Value.str "City", Value.str "Austin")] 1).toOption := by
  exact ⟨by decide, by decide⟩

/-! ### Claim C1: payload and key-preservation lemmas -/

theorem lookup_map_overwrite {m : Payload} {k n : String} {v : Value} (hkn : k ≠ n) :
    (m.map (fun p => if p.1 = k then (p.1, v) else p)).lookup n = m.lookup n := by
  induction m with
  | nil => rfl
  | cons p rest ih =>
    obtain ⟨pk, pv⟩ := p
    by_cases hp : pk = k
    · subst hp
      have hne : (n == pk) = false := beq_eq_false_iff_ne.mpr (fun he => hkn he.symm)
      rw [List.map_cons, if_pos (show ((pk, pv) : String × Value).1 = pk from rfl)]
      simp only [List.lookup, hne, ih]
    · rw [List.map_cons, if_neg (show ¬ ((pk, pv) : String × Value).1 = k from hp)]
      simp only [List.lookup]
      cases hnp : (n == pk) <;> simp [ih]

theorem lookup_append_ne {m : Payload} {k n : String} {v : Value} (hkn : k ≠ n) :
    (m ++ [(k, v)]).lookup n = m.lookup n := by
  induction m with
  | nil =>
    have hne : (n == k) = false := beq_eq_false_iff_ne.mpr (fun he => hkn he.symm)
    simp [List.lookup, hne]
  | cons p rest ih =>
    obtain ⟨pk, pv⟩ := p
    simp only [List.cons_append, List.lookup]
    cases hnp : (n == pk) <;> simp [ih]

theorem dictInsertP_lookup_ne {m : Payload} {k n : String} {v : Value} (hkn : k ≠ n) :
    (dictInsertP m k v).lookup n = m.lookup n := by
  unfold dictInsertP
  split
  · exact lookup_map_overwrite hkn
  · exact lookup_append_ne hkn

theorem foldl_insert_lookup_ne {l : List (String × Value)} {m : Payload} {n : String}
    (h : ∀ p ∈ l, p.1 ≠ n) :
    (l.foldl (fun acc p => dictInsertP acc p.1 p.2) m).lookup n = m.lookup n := by
  induction l generalizing m with
  | nil => rfl
  | cons p rest ih =>
    simp only [List.foldl_cons]
    rw [ih (fun q hq => h q (by simp [hq]))]
    exact dictInsertP_lookup_ne (h p (by simp))

theorem mkPayload_lookup_key {k : String} {proj : Payload}
    (h : ∀ p ∈ proj, p.1 ≠ "property_key") :
    (mkPayload k proj).lookup "property_key" = some (Value.str k) := by
  unfold mkPayload
  rw [foldl_insert_lookup_ne h]
  rfl

theorem dictInsertP_names {m : Payload} {k : String} {v : Value} {q : String × Value}
    (hq : q ∈ dictInsertP m k v) : q.1 = k ∨ q.1 ∈ m.map Prod.fst := by
  unfold dictInsertP at hq
  split at hq
  · obtain ⟨p, hp, he⟩ := List.mem_map.mp hq
    by_cases hpk : p.1 = k
    · rw [if_pos hpk] at he
      subst he
      exact Or.inl hpk
    · rw [if_neg hpk] at he
      subst he
      exact Or.inr (List.mem_map_of_mem _ hp)
  · rcases List.mem_append.mp hq with hin | hin
    · exact Or.inr (List.mem_map_of_mem _ hin)
    · simp at hin
      subst hin
      exact Or.inl rfl

theorem projectFields_names {src : RawDict} {mapping : List (String × String)} :
    ∀ q ∈ projectFields src mapping, q.1 ∈ mapping.map Prod.snd := by
  unfold projectFields
  split
  · simp
  · have inv : ∀ (l : List (String × String)) (acc : Payload),
        (∀ q ∈ acc, q.1 ∈ mapping.map Prod.snd) →
        (∀ pair ∈ l, pair.2 ∈ mapping.map Prod.snd) →
        ∀ q ∈ l.foldl (fun projected pair =>
            if src.any (fun p => match p.1 with | .str s => s = pair.1 | _ => false) then
              dictInsertP projected pair.2 (rawGet src pair.1)
            else projected) acc,
          q.1 ∈ mapping.map Prod.snd := by
      intro l
      induction l with
      | nil => intro acc hacc _ q hq; exact hacc q hq
      | cons pair rest ih =>
        intro acc hacc hl q hq
        simp only [List.foldl_cons] at hq
        refine ih _ ?_ (fun p hp => hl p (by simp [hp])) q hq
        intro q' hq'
        split at hq'
        · rcases dictInsertP_names hq' with he | hin
          · rw [he]
            exact hl pair (by simp)
          · obtain ⟨p, hp, he⟩ := List.mem_map.mp hin
            rw [← he]
            exact hacc p hp
        · exact hacc q' hq'
    exact inv mapping [] (by simp) (fun pair hp => List.mem_map_of_mem _ hp)

theorem mapM_cons_ok {α β : Type} {f : α → Except PyError β} {a : α} {as : List α}
    {out : List β} (h : (a :: as).mapM f = .ok out) :
    ∃ b bs, f a = .ok b ∧ as.mapM f = .ok bs ∧ out = b :: bs := by
  rw [List.mapM_cons] at h
  cases hfa : f a with
  | error e => rw [hfa] at h; simp [Bind.bind, Except.bind] at h
  | ok b =>
    rw [hfa] at h
    simp only [Bind.bind, Except.bind] at h
    cases hms : as.mapM f with
    | error e => rw [hms] at h; simp at h
    | ok bs =>
      rw [hms] at h
      simp only [Pure.pure, Except.pure, Except.ok.injEq] at h
      exact ⟨b, bs, rfl, rfl, h.symm⟩

theorem constructRecord_cons_key {cy : Int} {rest : List FieldSpec} {payload : Payload}
    {rec : Record} {k : String}
    (hlook : payload.lookup "property_key" = some (Value.str k))
    (h : constructRecord cy (fsp "property_key" .keyStr :: rest) payload = .ok rec) :
    keyOf rec = k := by
  unfold constructRecord at h
  obtain ⟨b, bs, hb, -, hout⟩ := mapM_cons_ok h
  have hbval : b = ("property_key", NormValue.str k) := by
    simp only [payloadLookup, fsp, hlook, normalizeField, coreStrReq, coreStrOpt,
      Bind.bind, Except.bind, Pure.pure, Except.pure, Except.ok.injEq] at hb
    exact hb.symm
  subst hbval
  subst hout
  rfl

theorem perRecord_key {t : Transformer} {cy : Int} {record : RawDict} {k : String}
    {out : PerOut} (hcfg : "property_key" ∉ t.propertyFields.map Prod.snd)
    (h : perRecord t cy record k = .ok out) : keyOf out.prop = k := by
  have hp := (perRecord_spec t cy record k out h).1
  have hnames : ∀ p ∈ projectFields record t.propertyFields, p.1 ≠ "property_key" := by
    intro p hp2 he
    exact hcfg (he ▸ projectFields_names p hp2)
  exact constructRecord_cons_key (mkPayload_lookup_key hnames) hp

theorem transformGo_dedup (t : Transformer) (cy : Int) :
    ∀ (rs : List RawDict) (i : Nat) (seen : List String) (b : NormalizedBundle),
      transformGo t cy i seen rs = .ok b ↔
      (collectSurvivors i seen rs >>= assembleSurvivors t cy) = .ok b := by
  intro rs
  induction rs with
  | nil =>
    intro i seen b
    simp [transformGo, collectSurvivors, assembleSurvivors, Bind.bind, Except.bind]
  | cons r rest ih =>
    intro i seen b
    cases hk : buildPropertyKey r i with
    | error e =>
      simp [transformGo, collectSurvivors, hk, Bind.bind, Except.bind]
    | ok k =>
      by_cases hs : seen.contains k = true
      · simp only [transformGo, collectSurvivors, hk, hs, Bind.bind, Except.bind,
          if_true, reduceIte]
        exact ih (i + 1) seen b
      · simp only [transformGo, collectSurvivors, hk, hs, Bind.bind, Except.bind,
          Bool.false_eq_true, if_false, reduceIte]
        cases hp : perRecord t cy r k with
        | error e =>
          simp only [hp]
          cases hc : collectSurvivors (i + 1) (k :: seen) rest with
          | error e2 => simp [hc]
          | ok svs =>
            simp only [hc, assembleSurvivors, hp, Bind.bind, Except.bind,
              Pure.pure, Except.pure]
        | ok out =>
          simp only [hp]
          cases hgo : transformGo t cy (i + 1) (k :: seen) rest with
          | error e =>
            cases hc : collectSurvivors (i + 1) (k :: seen) rest with
            | error e2 => simp [hc]
            | ok svs =>
              cases ha : assembleSurvivors t cy svs with
              | error e3 =>
                simp only [hc, assembleSurvivors, hp, ha, Bind.bind, Except.bind,
                  Pure.pure, Except.pure]
                simp
              | ok b2 =>
                have : transformGo t cy (i + 1) (k :: seen) rest = .ok b2 :=
                  (ih (i + 1) (k :: seen) b2).mpr (by
                    simp [hc, ha, Bind.bind, Except.bind])
                rw [hgo] at this
                simp at this
          | ok b1 =>
            have h2 := (ih (i + 1) (k :: seen) b1).mp hgo
            cases hc : collectSurvivors (i + 1) (k :: seen) rest with
            | error e2 =>
              rw [hc] at h2
              simp [Bind.bind, Except.bind] at h2
            | ok svs =>
              rw [hc] at h2
              simp only [Bind.bind, Except.bind] at h2
              simp only [hc, assembleSurvivors, hp, h2, Bind.bind, Except.bind,
                Pure.pure, Except.pure]

theorem collectSurvivors_keys :
    ∀ (rs : List RawDict) (i : Nat) (seen : List String) (svs : List (String × RawDict)),
      collectSurvivors i seen rs = .ok svs →
      (svs.map Prod.fst).Nodup ∧ ∀ k ∈ svs.map Prod.fst, seen.contains k = false := by
  intro rs
  induction rs with
  | nil =>
    intro i seen svs h
    simp only [collectSurvivors, Except.ok.injEq] at h
    subst h
    simp
  | cons r rest ih =>
    intro i seen svs h
    cases hk : buildPropertyKey r i with
    | error e => rw [collectSurvivors, hk] at h; simp [Bind.bind, Except.bind] at h
    | ok k =>
      rw [collectSurvivors, hk] at h
      simp only [Bind.bind, Except.bind] at h
      by_cases hs : seen.contains k = true
      · rw [if_pos hs] at h
        exact ih (i + 1) seen svs h
      · rw [if_neg hs] at h
        cases hc : collectSurvivors (i + 1) (k :: seen) rest with
        | error e => rw [hc] at h; simp at h
        | ok tail =>
          rw [hc] at h
          simp only [Pure.pure, Except.pure, Except.ok.injEq] at h
          subst h
          obtain ⟨hnd, hmem⟩ := ih (i + 1) (k :: seen) tail hc
          have hkt : k ∉ tail.map Prod.fst := by
            intro hin
            have := hmem k hin
            simp at this
          refine ⟨by simp [hnd, hkt], ?_⟩
          intro k2 hk2
          simp only [List.map_cons, List.mem_cons] at hk2
          rcases hk2 with rfl | hk2
          · simpa using hs
          · have h3 := hmem k2 hk2
            simp only [List.contains_cons, Bool.or_eq_false_iff] at h3
            exact h3.2

theorem assembleSurvivors_keys {t : Transformer} {cy : Int}
    (hcfg : "property_key" ∉ t.propertyFields.map Prod.snd) :
    ∀ (svs : List (String × RawDict)) (b : NormalizedBundle),
      assembleSurvivors t cy svs = .ok b →
      b.properties.map keyOf = svs.map Prod.fst := by
  intro svs
  induction svs with
  | nil =>
    intro b h
    simp only [assembleSurvivors, Except.ok.injEq] at h
    subst h
    rfl
  | cons kr rest ih =>
    intro b h
    obtain ⟨k, r⟩ := kr
    rw [assembleSurvivors] at h
    simp only [Bind.bind, Except.bind] at h
    cases hp : perRecord t cy r k with
    | error e => rw [hp] at h; simp at h
    | ok out =>
      rw [hp] at h
      cases ha : assembleSurvivors t cy rest with
      | error e => rw [ha] at h; simp at h
      | ok b2 =>
        rw [ha] at h
        simp only [Pure.pure, Except.pure, Except.ok.injEq] at h
        subst h
        simp only [consOut, List.map_cons]
        rw [perRecord_key hcfg hp, ih b2 ha]

/-! ### Claim C1 -/

/-- C1 (corrected).  Under any field configuration whose property
mapping does not target the `property_key` attribute (a projected
column named e.g. `Property_Key` would overwrite the derived key in the
payload — see the counterexample), the assembled bundle has pairwise
distinct stored property keys, and `transform` computes exactly the
keep-first dedup semantics: a record whose derived key was already
derived by an earlier record contributes nothing to any of the six
collections, and the kept Property is the one assembled from the first
occurrence in input order. -/
theorem c1_dedup_first (t : Transformer) (cy : Int) (records : List RawDict)
    (b : NormalizedBundle)
    (hcfg : "property_key" ∉ t.propertyFields.map Prod.snd)
    (h : transform t cy records = .ok b) :
    (b.properties.map keyOf).Nodup ∧ transformDedupFirst t cy records = .ok b := by
  have h2 : (collectSurvivors 1 [] records >>= assembleSurvivors t cy) = .ok b :=
    (transformGo_dedup t cy records 1 [] b).mp h
  refine ⟨?_, h2⟩
  cases hc : collectSurvivors 1 [] records with
  | error e =>
    rw [hc] at h2
    simp [Bind.bind, Except.bind] at h2
  | ok svs =>
    rw [hc] at h2
    simp only [Bind.bind, Except.bind] at h2
    rw [assembleSurvivors_keys hcfg svs b h2]
    exact (collectSurvivors_keys records 1 [] svs hc).1

/-- C1 witness: the duplicate second record is dropped entirely and
the stored keys are distinct. -/
theorem c1_dedup_first_witness :
    (bC1W.properties.map keyOf).Nodup ∧
    transformDedupFirst tC1W 2026 [[(Value.str "City", Value.str "Austin")],
      [(Value.str "City", Value.str " AUSTIN ")]] = .ok bC1W := by
  exact c1_dedup_first tC1W 2026 _ bC1W (by decide) rfl

/-- C1 counterexample: with a config column mapping onto
`property_key`, the projected raw value overwrites the derived key in
the payload, so two records with different derived keys (different
street addresses) but the same raw `Property_Key` value are both kept
and stored with identical keys — the claimed pairwise distinctness of
`property_key` fails. -/
theorem c1_counterexample :
    (transform tC1X 2026
        [[(Value.str "Property_Key", Value.str "A"),
          (Value.str "Street_Address", Value.str "x")],
         [(Value.str "Property_Key", Value.str "A"),
          (Value.str "Street_Address", Value.str "y")]]).map
      (fun b => b.properties.map keyOf) = .ok ["A", "A"] ∧
    ¬ (["A", "A"] : List String).Nodup := by
  exact ⟨rfl, by decide⟩

end PropertyEtl
